import Mathlib

/-!
Verification development for the knowledge-graph analytics engine of the
NeuralOrchestrator repository (server/services/knowledgeGraph.ts, the
KnowledgeGraph class backed by the SQLite storage object of server/storage.ts).

Modelling conventions:
* JavaScript floating-point numbers are modelled as real numbers; the
  integer-valued term-frequency layer (feature vectors, dot products, sums of
  squares) is kept in the naturals and cast into the reals at the
  cosine-similarity boundary, where Math.sqrt forces irrational values.
* The storage layer is SQLite-backed: every getKnowledgeGraph read returns
  fresh copies of the rows, and updateKnowledgeNode overwrites the row's
  node_data, connections and metadata columns from the supplied object
  (JSON.stringify(data.nodeData || {}) — so a call that omits nodeData, as
  evolveKnowledgeGraph and addConnection do, resets node_data to the empty
  object).  A SystemState therefore carries the node rows of one project
  together with the two instance-level caches of the KnowledgeGraph class
  (semanticCache and graphMetrics).  The free-form metadata column is
  passthrough only and is not modelled.
* While-loops whose queues can transiently grow (the three BFS traversals and
  the cluster expansion) are modelled with an explicit fuel parameter chosen
  large enough that the fuel never runs out on the loop's actual reachable
  states; all invariant theorems below are proved for every fuel value.
* JavaScript Array.prototype.sort with a comparator is modelled as a stable
  merge sort on the corresponding relation; Map iteration order is modelled
  as insertion order of an association list.
-/

namespace KnowledgeGraphTS

/-- 32-bit signed wrap-around used by the JavaScript expression
(hash & hash), i.e. ToInt32. -/
def jsToInt32 (n : ℤ) : ℤ := (n + 2 ^ 31) % 2 ^ 32 - 2 ^ 31

/-- simpleHash from the source: hash = ((hash << 5) - hash) + charCode,
truncated to a 32-bit signed integer each step, with Math.abs at the end.
Since (hash << 5) - hash is congruent to 31 * hash modulo 2^32, one ToInt32
per step is an exact model. -/
def simpleHash (str : String) : ℕ :=
  (str.data.foldl (fun hash c => jsToInt32 (31 * hash + c.toNat)) 0).natAbs

/-- Characters matched by the \w regex class: letters, digits, underscore. -/
def isWordChar (c : Char) : Bool := c.isAlphanum || c == '_'

/-- Frequency tally preserving first-seen (insertion) order, modelling the
JavaScript Map used for keyword and concept counting. -/
def tally (words : List String) : List (String × ℕ) :=
  words.foldl (fun acc w =>
    if acc.any (fun p => p.1 == w) then
      acc.map (fun p => if p.1 == w then (p.1, p.2 + 1) else p)
    else acc ++ [(w, 1)]) []

/-- extractKeywords from the source: lower-case the content, replace
non-word characters by spaces, split on whitespace, keep words longer than 3
characters, count them, sort by frequency descending (stable) and keep the
first 10 words. -/
def extractKeywords (content : String) : List String :=
  let words := ((content.toLower.data.map fun c => if isWordChar c then c else ' ').splitOn ' ')
    |>.map (fun w => String.mk w) |>.filter (fun w => 3 < w.length)
  (((tally words).mergeSort fun a b => decide (b.2 ≤ a.2)).take 10).map (·.1)

open Classical in
/-- JavaScript x || fallback on numbers: x when truthy (nonzero), else the
fallback.  (NaN, the other falsy number, does not arise in the model.) -/
noncomputable def jsOrReal (x fallback : ℝ) : ℝ := if x = 0 then fallback else x

/-- Connection entry as stored inside a node's connections JSON column:
the objects pushed by addConnection / addCodeKnowledge etc. -/
structure Edge where
  nodeId : String
  type : String
  weight : ℝ

/-- Free-form nodeData payload, restricted to the fields the engine reads.
Absent JSON fields are modelled by the defaults (empty string / empty list),
matching the x || fallback accesses in the source. -/
structure NodeData where
  functions : List String := []
  imports : List String := []
  language : String := ""
  sections : List String := []
  keywords : List String := []
  priority : String := ""
  status : String := ""
  description : String := ""

/-- Row of the knowledge_graph_nodes table for one project. -/
structure KnowledgeNode where
  id : ℕ
  projectId : ℕ
  nodeType : String
  nodeId : String
  nodeData : NodeData := {}
  connections : List Edge := []

/-- Logical vertex keys of a node list. -/
def nodeIds (nodes : List KnowledgeNode) : List String := nodes.map (·.nodeId)

/-- nodes.find(n => n.nodeId === nodeId), the lookup used throughout the
source. -/
def findNode (nodes : List KnowledgeNode) (nodeId : String) : Option KnowledgeNode :=
  nodes.find? (fun n => n.nodeId == nodeId)

/-- Total number of stored connection entries, used as a safe fuel bound for
the BFS loops. -/
def totalConnections (nodes : List KnowledgeNode) : ℕ :=
  (nodes.map (·.connections.length)).sum

/-- Result record of extractSemanticFeatures. -/
structure SemanticFeatures where
  vector : List ℕ
  concepts : List String
  keywords : List String

/-- createSemanticVector: tally all terms, then add each term's frequency
into bucket simpleHash(term) % 100 of a 100-slot vector. -/
def createSemanticVector (concepts keywords : List String) : List ℕ :=
  (tally (concepts ++ keywords)).foldl
    (fun vector p =>
      let h := simpleHash p.1 % 100
      vector.set h (vector.getD h 0 + p.2))
    (List.replicate 100 0)

/-- extractSemanticFeatures from the source: concepts and keywords chosen by
nodeType (code: functions ++ imports and the language tag; documentation:
sections and stored keywords; task: priority, status and keywords of the
description), then vectorized.  Any other nodeType yields no features. -/
def extractSemanticFeatures (node : KnowledgeNode) : SemanticFeatures :=
  let d := node.nodeData
  let concepts : List String :=
    if node.nodeType = "code" then d.functions ++ d.imports
    else if node.nodeType = "documentation" then d.sections
    else if node.nodeType = "task" then [d.priority, d.status]
    else []
  let keywords : List String :=
    if node.nodeType = "code" then [d.language]
    else if node.nodeType = "documentation" then d.keywords
    else if node.nodeType = "task" then extractKeywords d.description
    else []
  { vector := createSemanticVector concepts keywords
    concepts := concepts
    keywords := keywords }

/-- Dot product with missing entries of the second vector read as 0,
modelling v1.reduce((sum, val, i) => sum + val * (v2[i] || 0), 0). -/
def dotProduct : List ℕ → List ℕ → ℕ
  | [], _ => 0
  | x :: xs, [] => x * 0 + dotProduct xs []
  | x :: xs, y :: ys => x * y + dotProduct xs ys

/-- Sum of squares of a vector, the radicand of a magnitude computation
v.reduce((sum, val) => sum + val * val, 0). -/
def sumOfSquares : List ℕ → ℕ
  | [] => 0
  | x :: xs => x * x + sumOfSquares xs

open Classical in
/-- calculateCosineSimilarity from the source: 0 when either magnitude is 0,
else dotProduct / (magnitude1 * magnitude2). -/
noncomputable def calculateCosineSimilarity (vector1 vector2 : List ℕ) : ℝ :=
  let dp : ℝ := (dotProduct vector1 vector2 : ℕ)
  let magnitude1 : ℝ := Real.sqrt ((sumOfSquares vector1 : ℕ) : ℝ)
  let magnitude2 : ℝ := Real.sqrt ((sumOfSquares vector2 : ℕ) : ℝ)
  if magnitude1 = 0 ∨ magnitude2 = 0 then 0 else dp / (magnitude1 * magnitude2)

/-- findCommonConcepts: concepts1.filter(c => concepts2.includes(c)). -/
def findCommonConcepts (concepts1 concepts2 : List String) : List String :=
  concepts1.filter (fun c => concepts2.contains c)

/-- Queue-based BFS of calculateSemanticDistance, with fuel.  The popped id is
compared against the target before the visited check, exactly as in the
source; Infinity is the top element of the extended naturals. -/
def semanticDistanceBFS (nodes : List KnowledgeNode) (target : String) :
    ℕ → List (String × ℕ) → List String → ℕ∞
  | 0, _, _ => ⊤
  | _ + 1, [], _ => ⊤
  | fuel + 1, (cur, distance) :: queue, visited =>
    if cur = target then (distance : ℕ∞)
    else if cur ∈ visited then semanticDistanceBFS nodes target fuel queue visited
    else
      let visited' := cur :: visited
      match findNode nodes cur with
      | some node =>
        let next := (node.connections.filter fun c => !(visited'.contains c.nodeId)).map
          (fun c => (c.nodeId, distance + 1))
        semanticDistanceBFS nodes target fuel (queue ++ next) visited'
      | none => semanticDistanceBFS nodes target fuel queue visited'

/-- calculateSemanticDistance: unweighted BFS hop count from node1 to node2
along stored (outbound) connections, Infinity when unreachable. -/
def calculateSemanticDistance (node1 node2 : KnowledgeNode)
    (allNodes : List KnowledgeNode) : ℕ∞ :=
  semanticDistanceBFS allNodes node2.nodeId
    (totalConnections allNodes + allNodes.length + 1) [(node1.nodeId, 0)] []

open Classical in
/-- analyzeRelationshipStrength: the direct edge's weight (with the
JavaScript falsy fallback weight || 0.5) if node1 stores an edge to node2,
else 0.1 times the number of mutual outbound neighbours. -/
noncomputable def analyzeRelationshipStrength (node1 node2 : KnowledgeNode) : ℝ :=
  match node1.connections.find? (fun c => c.nodeId == node2.nodeId) with
  | some directConnection => jsOrReal directConnection.weight 0.5
  | none =>
      let mutualConns := node1.connections.filter fun c1 =>
        node2.connections.any fun c2 => c1.nodeId == c2.nodeId
      if 0 < mutualConns.length then (mutualConns.length : ℝ) * 0.1 else 0

/-- Value returned by analyzeSemanticSimilarity. -/
structure SimilarityResult where
  similarity : ℝ
  commonConcepts : List String
  semanticDistance : ℕ∞
  relationshipStrength : ℝ

/-- Cache-miss computation of analyzeSemanticSimilarity (source lines that
extract features of both nodes and assemble the four metrics). -/
noncomputable def analyzeCompute (nodes : List KnowledgeNode)
    (node1 node2 : KnowledgeNode) : SimilarityResult :=
  let features1 := extractSemanticFeatures node1
  let features2 := extractSemanticFeatures node2
  { similarity := calculateCosineSimilarity features1.vector features2.vector
    commonConcepts := findCommonConcepts features1.concepts features2.concepts
    semanticDistance := calculateSemanticDistance node1 node2 nodes
    relationshipStrength := analyzeRelationshipStrength node1 node2 }

/-- KnowledgeConnection interface of the source (fields from / to / type /
weight); from and to are renamed fromId / toId because from is a Lean
keyword. -/
structure KnowledgeConnection where
  fromId : String
  toId : String
  type : String
  weight : ℝ

open Classical in
/-- extractConnections: flatten every node's stored connection entries into
from/to records, with the JavaScript falsy fallback weight || 1.0. -/
noncomputable def extractConnections (nodes : List KnowledgeNode) : List KnowledgeConnection :=
  nodes.flatMap fun node =>
    node.connections.map fun conn =>
      { fromId := node.nodeId
        toId := conn.nodeId
        type := conn.type
        weight := jsOrReal conn.weight 1.0 }

/-- Write into entry (i, j) of a row-major list-of-lists matrix. -/
def matrixSet (matrix : List (List ℝ)) (i j : ℕ) (x : ℝ) : List (List ℝ) :=
  matrix.set i ((matrix.getD i []).set j x)

/-- Read entry (i, j) of a row-major list-of-lists matrix, 0 when out of
range. -/
def matrixGet (matrix : List (List ℝ)) (i j : ℕ) : ℝ :=
  (matrix.getD i []).getD j 0

/-- buildAdjacencyMatrix: zero n-by-n matrix, then for every extracted
connection whose endpoints resolve in the node list, write the weight at
both (i, j) and (j, i) (the explicit symmetrization step). -/
def buildAdjacencyMatrix (nodes : List KnowledgeNode)
    (connections : List KnowledgeConnection) : List (List ℝ) :=
  connections.foldl
    (fun matrix conn =>
      match nodes.findIdx? (fun n => n.nodeId == conn.fromId),
            nodes.findIdx? (fun n => n.nodeId == conn.toId) with
      | some fromIndex, some toIndex =>
          matrixSet (matrixSet matrix fromIndex toIndex conn.weight) toIndex fromIndex conn.weight
      | _, _ => matrix)
    (List.replicate nodes.length (List.replicate nodes.length 0))

/-- calculateGraphDensity: 0 when fewer than 2 nodes, else
edgeCount / (nodeCount * (nodeCount - 1) / 2) in floating-point division. -/
noncomputable def calculateGraphDensity (nodeCount edgeCount : ℕ) : ℝ :=
  if nodeCount < 2 then 0
  else (edgeCount : ℝ) / (((nodeCount : ℝ) * ((nodeCount : ℝ) - 1)) / 2)

open Classical in
/-- Inner double loop of calculateClusteringCoefficient: count adjacent
pairs (j, k) with j before k among the neighbour indices. -/
noncomputable def countAdjacentPairs (matrix : List (List ℝ)) : List ℕ → ℕ
  | [] => 0
  | j :: rest =>
      (rest.filter fun k => decide (0 < matrixGet matrix j k)).length
        + countAdjacentPairs matrix rest

open Classical in
/-- calculateClusteringCoefficient from the source: for every row, collect
neighbour indices (strictly positive entries); rows with fewer than 2
neighbours are skipped; each other row contributes triangles divided by
possible triangles; the total is divided by the full row count n.  (For
n = 0 the source produces NaN; the model yields 0 / 0 = 0.) -/
noncomputable def calculateClusteringCoefficient (adjacencyMatrix : List (List ℝ)) : ℝ :=
  let n := adjacencyMatrix.length
  let total := (List.range n).foldl
    (fun totalCoefficient i =>
      let neighbors := (List.range n).filter fun j => decide (0 < matrixGet adjacencyMatrix i j)
      if neighbors.length < 2 then totalCoefficient
      else
        let triangles := countAdjacentPairs adjacencyMatrix neighbors
        let possibleTriangles := ((neighbors.length : ℝ) * ((neighbors.length : ℝ) - 1)) / 2
        totalCoefficient + (triangles : ℝ) / possibleTriangles)
    0
  total / (n : ℝ)

/-- All unordered pairs of a list, first component occurring earlier,
modelling the nested for (i; j = i + 1) loops. -/
def allPairs {α : Type} : List α → List (α × α)
  | [] => []
  | x :: rest => rest.map (fun y => (x, y)) ++ allPairs rest

/-- Queue-based BFS of findShortestPaths (returns at most one path), with
fuel.  Neighbours are taken from the extracted connection records in either
direction. -/
def shortestPathBFS (connections : List KnowledgeConnection) (target : String) :
    ℕ → List (String × List String) → List String → List (List String)
  | 0, _, _ => []
  | _ + 1, [], _ => []
  | fuel + 1, (cur, path) :: queue, visited =>
    if cur = target then [path]
    else if cur ∈ visited then shortestPathBFS connections target fuel queue visited
    else
      let visited' := cur :: visited
      let connectedNodes := (connections.filter fun c => c.fromId == cur || c.toId == cur).map
        (fun c => if c.fromId == cur then c.toId else c.fromId)
      let next := (connectedNodes.filter fun cn => !(visited'.contains cn)).map
        (fun cn => (cn, path ++ [cn]))
      shortestPathBFS connections target fuel (queue ++ next) visited'

/-- findShortestPaths: single-path BFS between two node ids over the
symmetrically interpreted connection records. -/
def findShortestPaths (source target : String) (nodes : List KnowledgeNode)
    (connections : List KnowledgeConnection) : List (List String) :=
  shortestPathBFS connections target
    (1 + (nodes.length + 2 * connections.length) * (connections.length + 1))
    [(source, [source])] []

/-- centrality[key] += amount on an association list; keys absent from the
list are left untouched. -/
noncomputable def bumpScore (scores : List (String × ℝ)) (key : String) (amount : ℝ) :
    List (String × ℝ) :=
  scores.map fun p => if p.1 == key then (p.1, p.2 + amount) else p

/-- calculateBetweennessCentrality: initialise every node's score to 0; for
every unordered node pair find one shortest path and credit
1 / (number of found paths) to every interior node of each found path. -/
noncomputable def calculateBetweennessCentrality (nodes : List KnowledgeNode)
    (connections : List KnowledgeConnection) : List (String × ℝ) :=
  (allPairs nodes).foldl
    (fun centrality pair =>
      let paths := findShortestPaths pair.1.nodeId pair.2.nodeId nodes connections
      paths.foldl
        (fun centrality path =>
          ((path.drop 1).dropLast).foldl
            (fun centrality k => bumpScore centrality k (1 / (paths.length : ℝ)))
            centrality)
        centrality)
    (nodes.map fun n => (n.nodeId, (0 : ℝ)))

/-- Entry (i, j) of the Floyd–Warshall distance matrix, Infinity (top) when
out of range. -/
def distGet (dist : List (List (WithTop ℝ))) (i j : ℕ) : WithTop ℝ :=
  (dist.getD i []).getD j ⊤

/-- Write into the Floyd–Warshall distance matrix. -/
def distSet (dist : List (List (WithTop ℝ))) (i j : ℕ) (x : WithTop ℝ) :
    List (List (WithTop ℝ)) :=
  dist.set i ((dist.getD i []).set j x)

open Classical in
/-- calculateAveragePathLengths: initialise distances from the adjacency
matrix (0 on the diagonal, Infinity where the matrix entry is 0, else the
weight), run Floyd–Warshall, then record for every row index i (as a string
key, exactly as the source does) the average finite off-diagonal distance,
or 0 when none is reachable. -/
noncomputable def calculateAveragePathLengths (adjacencyMatrix : List (List ℝ)) :
    List (String × ℝ) :=
  let n := adjacencyMatrix.length
  let dist0 : List (List (WithTop ℝ)) :=
    (List.range n).map fun i =>
      (List.range n).map fun j =>
        if i = j then (0 : WithTop ℝ)
        else if matrixGet adjacencyMatrix i j = 0 then ⊤
        else ((matrixGet adjacencyMatrix i j : ℝ) : WithTop ℝ)
  let dist := (List.range n).foldl
    (fun dist k =>
      (List.range n).foldl
        (fun dist i =>
          (List.range n).foldl
            (fun dist j =>
              if distGet dist i k + distGet dist k j < distGet dist i j then
                distSet dist i j (distGet dist i k + distGet dist k j)
              else dist)
            dist)
        dist)
    dist0
  (List.range n).map fun i =>
    let sumCount := (List.range n).foldl
      (fun sc j =>
        if i = j then sc
        else
          match distGet dist i j with
          | ⊤ => sc
          | (x : ℝ) => (sc.1 + x, sc.2 + 1))
      ((0 : ℝ), (0 : ℕ))
    (toString i, if 0 < sumCount.2 then sumCount.1 / (sumCount.2 : ℝ) else 0)

/-- Community record of detectCommunities. -/
structure Community where
  id : String
  nodes : List String
  modularity : ℝ

/-- calculateModularity: intra-community edges minus expected intra edges
(totalDegree^2 / (4 * totalEdges)), normalised by the total edge count; 0
when the graph has no edges. -/
noncomputable def calculateModularity (communityNodes : List String)
    (connections : List KnowledgeConnection) : ℝ :=
  let totalEdges := connections.length
  let intraEdges := (connections.filter fun c =>
    communityNodes.contains c.fromId && communityNodes.contains c.toId).length
  let totalDegree := (connections.filter fun c =>
    communityNodes.contains c.fromId || communityNodes.contains c.toId).length
  if totalEdges = 0 then 0
  else
    let expectedIntraEdges := ((totalDegree : ℝ) * (totalDegree : ℝ)) / (4 * (totalEdges : ℝ))
    ((intraEdges : ℝ) - expectedIntraEdges) / (totalEdges : ℝ)

/-- Insertion-ordered grouping of node ids by nodeType, modelling the
typeGroups Map of detectCommunities. -/
def typeGroups (nodes : List KnowledgeNode) : List (String × List String) :=
  nodes.foldl
    (fun groups node =>
      if groups.any (fun g => g.1 == node.nodeType) then
        groups.map fun g =>
          if g.1 == node.nodeType then (g.1, g.2 ++ [node.nodeId]) else g
      else groups ++ [(node.nodeType, [node.nodeId])])
    []

/-- detectCommunities: group nodes by type (insertion order); every group
with more than one member becomes a community with its modularity score. -/
noncomputable def detectCommunities (nodes : List KnowledgeNode)
    (connections : List KnowledgeConnection) : List Community :=
  (typeGroups nodes).filterMap fun g =>
    if 1 < g.2.length then
      some { id := "community_" ++ g.1, nodes := g.2, modularity := calculateModularity g.2 connections }
    else none

/-- Metrics record returned by calculateGraphMetrics. -/
structure GraphMetrics where
  density : ℝ
  clustering : ℝ
  centralityScores : List (String × ℝ)
  pathLengths : List (String × ℝ)
  communities : List Community

/-- Cache-miss body of calculateGraphMetrics: extract connections, build the
adjacency matrix, and assemble the five metrics. -/
noncomputable def computeGraphMetrics (nodes : List KnowledgeNode) : GraphMetrics :=
  let connections := extractConnections nodes
  let adjacencyMatrix := buildAdjacencyMatrix nodes connections
  { density := calculateGraphDensity nodes.length connections.length
    clustering := calculateClusteringCoefficient adjacencyMatrix
    centralityScores := calculateBetweennessCentrality nodes connections
    pathLengths := calculateAveragePathLengths adjacencyMatrix
    communities := detectCommunities nodes connections }

/-- Process state: the project's rows in the SQLite store plus the two
instance-level caches of the KnowledgeGraph class.  Both caches are
association lists in insertion order (JavaScript Map). -/
structure SystemState where
  nodes : List KnowledgeNode
  semanticCache : List (String × SimilarityResult) := []
  graphMetrics : List (String × GraphMetrics) := []

/-- Cache key of analyzeSemanticSimilarity: the template literal
nodeId1 + underscore + nodeId2 (ordered, not an unordered pair). -/
def simKey (nodeId1 nodeId2 : String) : String := nodeId1 ++ "_" ++ nodeId2

/-- analyzeSemanticSimilarity: return the cached entry when the ordered key
is present; otherwise look up both nodes (throwing when either is absent),
run the similarity computation, cache it under the ordered key and return
it. -/
noncomputable def analyzeSemanticSimilarity (s : SystemState) (_projectId : ℕ)
    (nodeId1 nodeId2 : String) : Except String (SimilarityResult × SystemState) :=
  let cacheKey := simKey nodeId1 nodeId2
  match s.semanticCache.lookup cacheKey with
  | some result => .ok (result, s)
  | none =>
    match findNode s.nodes nodeId1, findNode s.nodes nodeId2 with
    | some node1, some node2 =>
        let result := analyzeCompute s.nodes node1 node2
        .ok (result, { s with semanticCache := s.semanticCache ++ [(cacheKey, result)] })
    | _, _ => .error "One or both nodes not found"

/-- calculateGraphMetrics: per-project metrics cache keyed by the string
metrics_projectId; on a miss the metrics are computed from the current rows
and cached. -/
noncomputable def calculateGraphMetrics (s : SystemState) (projectId : ℕ) :
    GraphMetrics × SystemState :=
  let cacheKey := "metrics_" ++ toString projectId
  match s.graphMetrics.lookup cacheKey with
  | some metrics => (metrics, s)
  | none =>
    let metrics := computeGraphMetrics s.nodes
    (metrics, { s with graphMetrics := s.graphMetrics ++ [(cacheKey, metrics)] })

/-- Queue-based BFS of findRelatedNodes, with fuel.  A popped id is skipped
when already visited or deeper than maxDepth; otherwise it is marked
visited, its node (when present) is appended to the result and its
not-yet-visited connection targets are enqueued one level deeper. -/
def findRelatedNodesBFS (nodes : List KnowledgeNode) (maxDepth : ℕ) :
    ℕ → List (String × ℕ) → List String → List KnowledgeNode → List KnowledgeNode
  | 0, _, _, result => result
  | _ + 1, [], _, result => result
  | fuel + 1, (cur, depth) :: queue, visited, result =>
    if cur ∈ visited ∨ maxDepth < depth then
      findRelatedNodesBFS nodes maxDepth fuel queue visited result
    else
      let visited' := cur :: visited
      match findNode nodes cur with
      | some node =>
        let next := (node.connections.filter fun c => !(visited'.contains c.nodeId)).map
          (fun c => (c.nodeId, depth + 1))
        findRelatedNodesBFS nodes maxDepth fuel (queue ++ next) visited' (result ++ [node])
      | none => findRelatedNodesBFS nodes maxDepth fuel queue visited' result

/-- findRelatedNodes: depth-limited BFS from nodeId over outbound
connections, returning the traversed nodes in visit order.  An absent
nodeId yields the empty list (no error is signalled). -/
def findRelatedNodes (nodes : List KnowledgeNode) (nodeId : String)
    (maxDepth : ℕ) : List KnowledgeNode :=
  findRelatedNodesBFS nodes maxDepth
    (totalConnections nodes + nodes.length + 1) [(nodeId, 0)] [] []

/-- Suggestion record of suggestKnowledgeConnections. -/
structure ConnectionSuggestion where
  targetNodeId : String
  connectionType : String
  confidence : ℝ
  reasoning : String

/-- predictConnectionType: the fixed type-pair rule table. -/
def predictConnectionType (sourceNode targetNode : KnowledgeNode) : String :=
  if sourceNode.nodeType = "task" ∧ targetNode.nodeType = "code" then "generates"
  else if sourceNode.nodeType = "code" ∧ targetNode.nodeType = "documentation" then "documented_by"
  else if sourceNode.nodeType = "task" ∧ targetNode.nodeType = "task" then "depends_on"
  else if sourceNode.nodeType = targetNode.nodeType then "relates_to"
  else "uses"

open Classical in
/-- calculateConnectionConfidence: the similarity score boosted by the three
fixed multipliers and clamped to 1.0. -/
noncomputable def calculateConnectionConfidence (sourceNode targetNode : KnowledgeNode)
    (similarity : SimilarityResult) : ℝ :=
  let c1 := similarity.similarity
  let c2 := if sourceNode.nodeType = "task" ∧ targetNode.nodeType = "code" then c1 * 1.2 else c1
  let c3 := if 2 < similarity.commonConcepts.length then c2 * 1.1 else c2
  let c4 := if 0.5 < similarity.relationshipStrength then c3 * 1.15 else c3
  min 1.0 c4

open Classical in
/-- generateConnectionReasoning: semicolon-joined triggered factors, with the
generic fallback when none triggered. -/
noncomputable def generateConnectionReasoning (_sourceNode _targetNode : KnowledgeNode)
    (similarity : SimilarityResult) : String :=
  let reasons : List String :=
    (if 0.8 < similarity.similarity then ["High semantic similarity"] else [])
      ++ (if 0 < similarity.commonConcepts.length then
            ["Shared concepts: " ++ String.intercalate ", " similarity.commonConcepts] else [])
      ++ (if 0.5 < similarity.relationshipStrength then ["Strong existing relationships"] else [])
      ++ (if similarity.semanticDistance < 3 then ["Close in knowledge graph"] else [])
  let joined := String.intercalate "; " reasons
  if joined = "" then "General semantic relationship" else joined

open Classical in
/-- Per-target loop of suggestKnowledgeConnections: skip the source node
itself; otherwise analyze the pair (threading the cache) and push a
suggestion when the similarity exceeds 0.6. -/
noncomputable def suggestScan (projectId : ℕ) (nodeId : String) (sourceNode : KnowledgeNode) :
    List KnowledgeNode → SystemState → List ConnectionSuggestion →
    Except String (List ConnectionSuggestion × SystemState)
  | [], s, suggestions => .ok (suggestions, s)
  | targetNode :: rest, s, suggestions =>
    if targetNode.nodeId = nodeId then suggestScan projectId nodeId sourceNode rest s suggestions
    else
      match analyzeSemanticSimilarity s projectId nodeId targetNode.nodeId with
      | .error e => .error e
      | .ok (similarity, s') =>
        if 0.6 < similarity.similarity then
          suggestScan projectId nodeId sourceNode rest s' (suggestions ++
            [{ targetNodeId := targetNode.nodeId
               connectionType := predictConnectionType sourceNode targetNode
               confidence := calculateConnectionConfidence sourceNode targetNode similarity
               reasoning := generateConnectionReasoning sourceNode targetNode similarity }])
        else suggestScan projectId nodeId sourceNode rest s' suggestions

open Classical in
/-- suggestKnowledgeConnections: fail when the source node is absent, scan
every other node, sort the accepted suggestions by confidence descending
(stable) and keep the first maxSuggestions. -/
noncomputable def suggestKnowledgeConnections (s : SystemState) (projectId : ℕ)
    (nodeId : String) (maxSuggestions : ℕ) :
    Except String (List ConnectionSuggestion × SystemState) :=
  match findNode s.nodes nodeId with
  | none => .error "Source node not found"
  | some sourceNode =>
    match suggestScan projectId nodeId sourceNode s.nodes s [] with
    | .error e => .error e
    | .ok (suggestions, s') =>
      .ok ((suggestions.mergeSort fun a b => decide (b.confidence ≤ a.confidence)).take
        maxSuggestions, s')

open Classical in
/-- Mutation of the first stored edge towards the given target, taking the
maximum of the old and new weight (the merge rule of addConnection). -/
noncomputable def setWeightFirst : List Edge → String → ℝ → List Edge
  | [], _, _ => []
  | c :: cs, toNodeId, weight =>
    if c.nodeId = toNodeId then { c with weight := max c.weight weight } :: cs
    else c :: setWeightFirst cs toNodeId weight

/-- storage.updateKnowledgeNode as called with only connections and metadata:
the row keyed by the numeric id gets the new connections, and its node_data
column is reset to the empty object (JSON.stringify(data.nodeData || ..)). -/
def updateKnowledgeNode (s : SystemState) (id : ℕ) (connections : List Edge) :
    SystemState :=
  { s with nodes := s.nodes.map fun n =>
      if n.id = id then { n with nodeData := {}, connections := connections } else n }

open Classical in
/-- addConnection: silently return when the from-node is absent; otherwise
merge into an existing edge towards the target by taking the maximum weight,
or append a fresh edge, and write the row back. -/
noncomputable def addConnection (s : SystemState) (fromNodeId toNodeId connectionType : String)
    (weight : ℝ) : SystemState :=
  match findNode s.nodes fromNodeId with
  | none => s
  | some fromNode =>
    let connections :=
      if fromNode.connections.any (fun c => c.nodeId == toNodeId) then
        setWeightFirst fromNode.connections toNodeId weight
      else fromNode.connections ++ [{ nodeId := toNodeId, type := connectionType, weight := weight }]
    updateKnowledgeNode s fromNode.id connections

/-- getConnectionUsage: the mock usage signal of the source — the frequency
is the stored weight of the edge itself (0 when the node or edge is absent).
The lastUsed timestamp is unused by the engine and not modelled. -/
def getConnectionUsage (s : SystemState) (_projectId : ℕ)
    (fromNodeId toNodeId : String) : ℝ :=
  match findNode s.nodes fromNodeId with
  | none => 0
  | some fromNode =>
    match fromNode.connections.find? (fun c => c.nodeId == toNodeId) with
    | some connection => connection.weight
    | none => 0

open Classical in
/-- Per-edge re-weighting rule of evolveKnowledgeGraph: strengthen by 1.1
(clamped at 1.0) when the usage frequency exceeds 0.7, weaken by 0.9
(clamped at 0.1) when it is below 0.3, else leave the weight unchanged. -/
noncomputable def evolveConnectionWeight (frequency weight : ℝ) : ℝ :=
  if 0.7 < frequency then min 1.0 (weight * 1.1)
  else if frequency < 0.3 then max 0.1 (weight * 0.9)
  else weight

open Classical in
/-- Edge loop of evolveKnowledgeGraph over the snapshot row's connections:
each edge's usage frequency is fetched from the current store state and the
weight updated by evolveConnectionWeight, counting strengthened and
weakened edges.  The store is only written back after the loop. -/
noncomputable def evolveConnections (s : SystemState) (projectId : ℕ) (fromNodeId : String) :
    List Edge → List Edge × ℕ × ℕ
  | [] => ([], 0, 0)
  | conn :: rest =>
    let r := evolveConnections s projectId fromNodeId rest
    let frequency := getConnectionUsage s projectId fromNodeId conn.nodeId
    if 0.7 < frequency then
      ({ conn with weight := evolveConnectionWeight frequency conn.weight } :: r.1,
        r.2.1 + 1, r.2.2)
    else if frequency < 0.3 then
      ({ conn with weight := evolveConnectionWeight frequency conn.weight } :: r.1,
        r.2.1, r.2.2 + 1)
    else (conn :: r.1, r.2.1, r.2.2)

open Classical in
/-- Suggestion loop of evolveKnowledgeGraph: every suggestion with
confidence above 0.8 becomes a stored edge via addConnection, counted and
logged. -/
noncomputable def applySuggestions (fromNodeId : String) :
    List ConnectionSuggestion → SystemState → ℕ → List String →
    SystemState × ℕ × List String
  | [], s, newConnections, insights => (s, newConnections, insights)
  | suggestion :: rest, s, newConnections, insights =>
    if 0.8 < suggestion.confidence then
      applySuggestions fromNodeId rest
        (addConnection s fromNodeId suggestion.targetNodeId suggestion.connectionType
          suggestion.confidence)
        (newConnections + 1)
        (insights ++ ["Added " ++ suggestion.connectionType ++ " connection: "
          ++ fromNodeId ++ " -> " ++ suggestion.targetNodeId])
    else applySuggestions fromNodeId rest s newConnections insights

open Classical in
/-- Per-node pass of evolveKnowledgeGraph over the snapshot taken at entry:
take the top-3 suggestions against the current state, add the
high-confidence ones, re-weight the snapshot row's edges, and write the row
back (which also wipes its node_data, see updateKnowledgeNode). -/
noncomputable def evolveFold (projectId : ℕ) :
    List KnowledgeNode → SystemState → ℕ → ℕ → ℕ → List String →
    Except String (SystemState × ℕ × ℕ × ℕ × List String)
  | [], s, nc, sc, wc, insights => .ok (s, nc, sc, wc, insights)
  | node :: rest, s, nc, sc, wc, insights =>
    match suggestKnowledgeConnections s projectId node.nodeId 3 with
    | .error e => .error e
    | .ok (suggestions, s1) =>
      let applied := applySuggestions node.nodeId suggestions s1 nc insights
      let evolved := evolveConnections applied.1 projectId node.nodeId node.connections
      let s3 := updateKnowledgeNode applied.1 node.id evolved.1
      evolveFold projectId rest s3 applied.2.1 (sc + evolved.2.1) (wc + evolved.2.2)
        applied.2.2

/-- Result record of evolveKnowledgeGraph. -/
structure EvolveResult where
  newConnections : ℕ
  strengthenedConnections : ℕ
  weakenedConnections : ℕ
  insights : List String

open Classical in
/-- evolveKnowledgeGraph: run the per-node pass over the entry snapshot,
then append the expansion insight (more than 5 new edges) and the density
insight (density above 0.3, via the cached metrics path). -/
noncomputable def evolveKnowledgeGraph (s : SystemState) (projectId : ℕ) :
    Except String (EvolveResult × SystemState) :=
  match evolveFold projectId s.nodes s 0 0 0 [] with
  | .error e => .error e
  | .ok (s', nc, sc, wc, insights) =>
    let insights2 := if 5 < nc then
        insights ++ ["Knowledge graph is expanding rapidly with " ++ toString nc
          ++ " new connections"]
      else insights
    let m := calculateGraphMetrics s' projectId
    let insights3 := if 0.3 < m.1.density then
        insights2 ++ ["Knowledge graph is becoming densely connected, indicating mature domain understanding"]
      else insights2
    .ok ({ newConnections := nc, strengthenedConnections := sc,
           weakenedConnections := wc, insights := insights3 }, m.2)

/-- Cluster record of findSemanticClusters. -/
structure SemanticCluster where
  clusterId : String
  nodes : List String
  centralConcepts : List String
  cohesionScore : ℝ

/-- findMostFrequentConcepts: frequency tally, stable sort by count
descending, keep the first limit concepts. -/
def findMostFrequentConcepts (concepts : List String) (limit : ℕ) : List String :=
  (((tally concepts).mergeSort fun a b => decide (b.2 ≤ a.2)).take limit).map (·.1)

open Classical in
/-- Pair loop of calculateClusterCohesion: sum the similarity of every
unordered pair through the caching analyze call. -/
noncomputable def cohesionFold (projectId : ℕ) :
    List (String × String) → SystemState → ℝ → ℕ →
    Except String (ℝ × ℕ × SystemState)
  | [], s, totalSimilarity, pairCount => .ok (totalSimilarity, pairCount, s)
  | (a, b) :: rest, s, totalSimilarity, pairCount =>
    match analyzeSemanticSimilarity s projectId a b with
    | .error e => .error e
    | .ok (similarity, s') =>
      cohesionFold projectId rest s' (totalSimilarity + similarity.similarity) (pairCount + 1)

open Classical in
/-- calculateClusterCohesion: mean pairwise similarity of the cluster
members, 0 for fewer than two members. -/
noncomputable def calculateClusterCohesion (s : SystemState) (projectId : ℕ)
    (nodeIds : List String) : Except String (ℝ × SystemState) :=
  match cohesionFold projectId (allPairs nodeIds) s 0 0 with
  | .error e => .error e
  | .ok (totalSimilarity, pairCount, s') =>
    .ok ((if 0 < pairCount then totalSimilarity / (pairCount : ℝ) else 0), s')

open Classical in
/-- Inner loop of expandSemanticCluster over the 1-hop related nodes of the
current queue element: an unvisited related node joins the cluster (and the
queue) exactly when its similarity to the seed reaches minSimilarity. -/
noncomputable def expandScan (projectId : ℕ) (seedNodeId : String) (minSimilarity : ℝ) :
    List KnowledgeNode → SystemState → List String → List String → List String →
    Except String (SystemState × List String × List String × List String)
  | [], s, visited, clusterNodes, queueAdds => .ok (s, visited, clusterNodes, queueAdds)
  | relatedNode :: rest, s, visited, clusterNodes, queueAdds =>
    if relatedNode.nodeId ∈ visited then
      expandScan projectId seedNodeId minSimilarity rest s visited clusterNodes queueAdds
    else
      match analyzeSemanticSimilarity s projectId seedNodeId relatedNode.nodeId with
      | .error e => .error e
      | .ok (similarity, s') =>
        if minSimilarity ≤ similarity.similarity then
          expandScan projectId seedNodeId minSimilarity rest s'
            (relatedNode.nodeId :: visited) (clusterNodes ++ [relatedNode.nodeId])
            (queueAdds ++ [relatedNode.nodeId])
        else expandScan projectId seedNodeId minSimilarity rest s' visited clusterNodes queueAdds

open Classical in
/-- Queue loop of expandSemanticCluster, with fuel: pop an id, fetch its
1-hop neighbourhood via findRelatedNodes and scan it. -/
noncomputable def expandLoop (projectId : ℕ) (seedNodeId : String) (minSimilarity : ℝ) :
    ℕ → List String → SystemState → List String → List String →
    Except String (List String × SystemState × List String)
  | 0, _, s, visited, clusterNodes => .ok (clusterNodes, s, visited)
  | _ + 1, [], s, visited, clusterNodes => .ok (clusterNodes, s, visited)
  | fuel + 1, currentNodeId :: queue, s, visited, clusterNodes =>
    let relatedNodes := findRelatedNodes s.nodes currentNodeId 1
    match expandScan projectId seedNodeId minSimilarity relatedNodes s visited clusterNodes [] with
    | .error e => .error e
    | .ok (s', visited', clusterNodes', queueAdds) =>
      expandLoop projectId seedNodeId minSimilarity fuel (queue ++ queueAdds) s' visited'
        clusterNodes'

open Classical in
/-- expandSemanticCluster: BFS expansion from the seed (which is visited and
in the cluster from the start), followed by central-concept extraction and
cohesion scoring. -/
noncomputable def expandSemanticCluster (s : SystemState) (projectId : ℕ)
    (seedNodeId : String) (minSimilarity : ℝ) (visited : List String) :
    Except String (SemanticCluster × SystemState × List String) :=
  match expandLoop projectId seedNodeId minSimilarity (s.nodes.length + 2) [seedNodeId] s
      (seedNodeId :: visited) [seedNodeId] with
  | .error e => .error e
  | .ok (clusterNodes, s', visited') =>
    let clusterNodeObjects := s'.nodes.filter fun n => clusterNodes.contains n.nodeId
    let allConcepts := clusterNodeObjects.flatMap fun n => (extractSemanticFeatures n).concepts
    let centralConcepts := findMostFrequentConcepts allConcepts 5
    match calculateClusterCohesion s' projectId clusterNodes with
    | .error e => .error e
    | .ok (cohesionScore, s'') =>
      .ok ({ clusterId := "cluster_" ++ seedNodeId, nodes := clusterNodes,
             centralConcepts := centralConcepts, cohesionScore := cohesionScore }, s'', visited')

open Classical in
/-- Outer loop of findSemanticClusters over the project's nodes: expand each
unvisited node into a cluster and keep the clusters with more than one
member. -/
noncomputable def clustersFold (projectId : ℕ) (minSimilarity : ℝ) :
    List KnowledgeNode → SystemState → List String → List SemanticCluster →
    Except String (List SemanticCluster × SystemState × List String)
  | [], s, visited, clusters => .ok (clusters, s, visited)
  | node :: rest, s, visited, clusters =>
    if node.nodeId ∈ visited then clustersFold projectId minSimilarity rest s visited clusters
    else
      match expandSemanticCluster s projectId node.nodeId minSimilarity visited with
      | .error e => .error e
      | .ok (cluster, s', visited') =>
        if 1 < cluster.nodes.length then
          clustersFold projectId minSimilarity rest s' visited' (clusters ++ [cluster])
        else clustersFold projectId minSimilarity rest s' visited' clusters

open Classical in
/-- findSemanticClusters: run the outer loop and sort the resulting clusters
by cohesion score descending (stable). -/
noncomputable def findSemanticClusters (s : SystemState) (projectId : ℕ)
    (minSimilarity : ℝ) : Except String (List SemanticCluster × SystemState) :=
  match clustersFold projectId minSimilarity s.nodes s [] [] with
  | .error e => .error e
  | .ok (clusters, s', _) =>
    .ok (clusters.mergeSort fun a b => decide (b.cohesionScore ≤ a.cohesionScore), s')

/-- Write operations considered by the invariant claims: an evolution pass
or a direct (suggestion-driven) edge addition. -/
inductive GraphOp where
  | evolve : GraphOp
  | addConn (fromNodeId toNodeId connectionType : String) (weight : ℝ) : GraphOp

open Classical in
/-- Application of one write operation to the state (an evolve pass that
throws leaves the state as is). -/
noncomputable def applyOp (projectId : ℕ) (s : SystemState) : GraphOp → SystemState
  | .evolve =>
    match evolveKnowledgeGraph s projectId with
    | .ok r => r.2
    | .error _ => s
  | .addConn fromNodeId toNodeId connectionType weight =>
    addConnection s fromNodeId toNodeId connectionType weight

open Classical in
/-- Sequential application of write operations. -/
noncomputable def runOps (projectId : ℕ) (s : SystemState) (ops : List GraphOp) : SystemState :=
  ops.foldl (applyOp projectId) s

/-- Clusters of a findSemanticClusters outcome (empty on error). -/
def clustersOf (e : Except String (List SemanticCluster × SystemState)) :
    List SemanticCluster :=
  match e with
  | .ok r => r.1
  | .error _ => []

/-- Suggestions of a suggestKnowledgeConnections outcome (empty on error). -/
def suggestionsOf (e : Except String (List ConnectionSuggestion × SystemState)) :
    List ConnectionSuggestion :=
  match e with
  | .ok r => r.1
  | .error _ => []

/-- Similarity score of an analyzeSemanticSimilarity outcome. -/
def simOf (e : Except String (SimilarityResult × SystemState)) : Option ℝ :=
  match e with
  | .ok r => some r.1.similarity
  | .error _ => none

/-- Relationship strength of an analyzeSemanticSimilarity outcome. -/
def rsOf (e : Except String (SimilarityResult × SystemState)) : Option ℝ :=
  match e with
  | .ok r => some r.1.relationshipStrength
  | .error _ => none

/-- Post-state of an analyzeSemanticSimilarity outcome, with a default for
the error case. -/
def stateOf (e : Except String (SimilarityResult × SystemState)) (dflt : SystemState) :
    SystemState :=
  match e with
  | .ok r => r.2
  | .error _ => dflt

/-- Invariant of claim C8: no node's connections list stores two edges
towards the same target. -/
def NoDupTargets (nodes : List KnowledgeNode) : Prop :=
  ∀ n ∈ nodes, (n.connections.map (·.nodeId)).Nodup

/-- Injectivity of the ordered similarity cache key over the project's node
ids (it can fail for ids containing underscores). -/
def SimKeyInjective (nodes : List KnowledgeNode) : Prop :=
  ∀ a ∈ nodeIds nodes, ∀ b ∈ nodeIds nodes, ∀ c ∈ nodeIds nodes, ∀ d ∈ nodeIds nodes,
    simKey a b = simKey c d → a = c ∧ b = d

/-- Consistency of the similarity cache with the current rows: every entry
was produced by the cache-miss computation for a resolvable ordered pair of
project node ids. -/
def CacheConsistent (nodes : List KnowledgeNode)
    (cache : List (String × SimilarityResult)) : Prop :=
  ∀ k r, cache.lookup k = some r →
    ∃ a b node1 node2, a ∈ nodeIds nodes ∧ b ∈ nodeIds nodes ∧ k = simKey a b ∧
      findNode nodes a = some node1 ∧ findNode nodes b = some node2 ∧
      r = analyzeCompute nodes node1 node2

/-- Modelled from the spec (section 4.6): the list of local clustering
coefficients of exactly the nodes with at least 2 neighbours — the
quantities the spec averages.  Used to compare the source's clustering
value against the spec's formula. -/
noncomputable def localCoefficients (adjacencyMatrix : List (List ℝ)) : List ℝ :=
  let n := adjacencyMatrix.length
  ((List.range n).filter fun i =>
      !(((List.range n).filter fun j =>
          decide (0 < matrixGet adjacencyMatrix i j)).length < 2)).map
    fun i =>
      let neighbors := (List.range n).filter fun j => decide (0 < matrixGet adjacencyMatrix i j)
      (countAdjacentPairs adjacencyMatrix neighbors : ℝ)
        / (((neighbors.length : ℝ) * ((neighbors.length : ℝ) - 1)) / 2)

/-- Modelled from the spec (section 4.6): the global clustering coefficient
as the mean over only the qualifying nodes (skipping nodes with fewer than
2 neighbours from the denominator as well as the sum). -/
noncomputable def clusteringSpecMean (adjacencyMatrix : List (List ℝ)) : ℝ :=
  let contribs := localCoefficients adjacencyMatrix
  if contribs.length = 0 then 0 else contribs.sum / (contribs.length : ℝ)

/-! Concrete demonstration inputs used by the counterexamples and
witnesses. -/

/-- Agent node without semantic features: its feature vector is all zeros. -/
def nodeAgentX : KnowledgeNode :=
  { id := 1, projectId := 1, nodeType := "agent", nodeId := "x" }

/-- One-node project around nodeAgentX. -/
def demoC1 : SystemState := { nodes := [nodeAgentX] }

/-- Code node with one function and a language tag (nonzero feature
vector). -/
def nodeCodeA : KnowledgeNode :=
  { id := 1, projectId := 1, nodeType := "code", nodeId := "a",
    nodeData := { functions := ["foo"], language := "typescript" } }

/-- Code node a with features foo / typescript and a stored edge a -> b of
weight 0.8. -/
noncomputable def nodeA : KnowledgeNode :=
  { id := 1, projectId := 1, nodeType := "code", nodeId := "a",
    nodeData := { functions := ["foo"], language := "typescript" },
    connections := [{ nodeId := "b", type := "uses", weight := 0.8 }] }

/-- Code node b with the same features as nodeA and no stored edges. -/
def nodeB : KnowledgeNode :=
  { id := 2, projectId := 1, nodeType := "code", nodeId := "b",
    nodeData := { functions := ["foo"], language := "typescript" } }

/-- Two-node project with identical semantic features and one stored edge
a -> b. -/
noncomputable def demoAB : SystemState := { nodes := [nodeA, nodeB] }

/-- Cache-miss analysis value of the pair (a, b) in demoAB. -/
noncomputable def resultAB : SimilarityResult := analyzeCompute [nodeA, nodeB] nodeA nodeB

/-- State after analyzing (a, b) in demoAB: the result is cached under the
ordered key a_b. -/
noncomputable def demoAB1 : SystemState :=
  { nodes := [nodeA, nodeB], semanticCache := [(simKey "a" "b", resultAB)] }

/-- Suggestion produced for target b when suggesting connections for a in
demoAB. -/
noncomputable def suggestionB : ConnectionSuggestion :=
  { targetNodeId := "b"
    connectionType := predictConnectionType nodeA nodeB
    confidence := calculateConnectionConfidence nodeA nodeB resultAB
    reasoning := generateConnectionReasoning nodeA nodeB resultAB }

/-- Two nodes storing one edge each towards the other (a mirrored pair):
2 stored connection entries on 2 nodes. -/
noncomputable def demoMirror : List KnowledgeNode :=
  [{ id := 1, projectId := 1, nodeType := "agent", nodeId := "a",
     connections := [{ nodeId := "b", type := "uses", weight := 1 }] },
   { id := 2, projectId := 1, nodeType := "agent", nodeId := "b",
     connections := [{ nodeId := "a", type := "uses", weight := 1 }] }]

/-- Two nodes with a single stored edge a -> b: a complete 2-node graph in
one-directional storage. -/
noncomputable def demoK2 : List KnowledgeNode :=
  [{ id := 1, projectId := 1, nodeType := "agent", nodeId := "a",
     connections := [{ nodeId := "b", type := "uses", weight := 1 }] },
   { id := 2, projectId := 1, nodeType := "agent", nodeId := "b" }]

/-- Two edge-free agent nodes. -/
def demoEmpty2 : List KnowledgeNode :=
  [{ id := 1, projectId := 1, nodeType := "agent", nodeId := "a" },
   { id := 2, projectId := 1, nodeType := "agent", nodeId := "b" }]

/-- Two-node edge-free project state (for the stale-metrics
counterexample). -/
def demoEmptyState : SystemState := { nodes := demoEmpty2 }

/-- Four nodes: a triangle a, b, c stored one-directionally plus an isolated
node d. -/
noncomputable def demoTriangle : List KnowledgeNode :=
  [{ id := 1, projectId := 1, nodeType := "agent", nodeId := "a",
     connections := [{ nodeId := "b", type := "uses", weight := 1 },
                     { nodeId := "c", type := "uses", weight := 1 }] },
   { id := 2, projectId := 1, nodeType := "agent", nodeId := "b",
     connections := [{ nodeId := "c", type := "uses", weight := 1 }] },
   { id := 3, projectId := 1, nodeType := "agent", nodeId := "c" },
   { id := 4, projectId := 1, nodeType := "agent", nodeId := "d" }]

/-- Agent node with a single self-edge of weight 0.8 (feature-free, so no
suggestions ever fire). -/
noncomputable def nodeSelf : KnowledgeNode :=
  { id := 1, projectId := 1, nodeType := "agent", nodeId := "a",
    connections := [{ nodeId := "a", type := "uses", weight := 0.8 }] }

/-- One-node project around nodeSelf. -/
noncomputable def demoSelf : SystemState := { nodes := [nodeSelf] }

/-- nodeSelf after one evolution pass: weight strengthened to 0.88. -/
noncomputable def nodeSelf88 : KnowledgeNode :=
  { id := 1, projectId := 1, nodeType := "agent", nodeId := "a",
    connections := [{ nodeId := "a", type := "uses", weight := 0.88 }] }

/-- nodeSelf after two evolution passes: weight strengthened to 0.968. -/
noncomputable def nodeSelf968 : KnowledgeNode :=
  { id := 1, projectId := 1, nodeType := "agent", nodeId := "a",
    connections := [{ nodeId := "a", type := "uses", weight := 0.968 }] }

/-- Weight of the first stored edge of the first node row, 0 when absent. -/
noncomputable def firstWeight (s : SystemState) : ℝ :=
  match s.nodes with
  | n :: _ =>
    match n.connections with
    | c :: _ => c.weight
    | [] => 0
  | [] => 0

/-- Placeholder similarity cache entry used by the cache-survival
witness. -/
noncomputable def simRes0 : SimilarityResult :=
  { similarity := 0, commonConcepts := [], semanticDistance := ⊤,
    relationshipStrength := 0 }

/-! Basic lemmas about lookups, node resolution and the cosine kernel. -/

theorem lookup_append {β : Type} (k : String) (l1 l2 : List (String × β)) :
    List.lookup k (l1 ++ l2) = (List.lookup k l1).or (List.lookup k l2) := by
  induction l1 with
  | nil => simp [List.lookup]
  | cons p t ih =>
    rcases p with ⟨a, b⟩
    cases hb : k == a <;> simp [List.lookup, hb, ih]

theorem lookup_mono {β : Type} {k : String} {l1 : List (String × β)} {v : β}
    (l2 : List (String × β)) (h : List.lookup k l1 = some v) :
    List.lookup k (l1 ++ l2) = some v := by
  rw [lookup_append, h]; rfl

theorem findNode_eq {nodes : List KnowledgeNode} {a : String} {n : KnowledgeNode}
    (h : findNode nodes a = some n) : n ∈ nodes ∧ n.nodeId = a := by
  refine ⟨List.mem_of_find?_eq_some h, ?_⟩
  have := List.find?_some h
  simpa using this

theorem findNode_mem_ids {nodes : List KnowledgeNode} {a : String} {n : KnowledgeNode}
    (h : findNode nodes a = some n) : a ∈ nodeIds nodes := by
  obtain ⟨hm, hid⟩ := findNode_eq h
  exact hid ▸ List.mem_map_of_mem (·.nodeId) hm

theorem mem_findNode {nodes : List KnowledgeNode} {n : KnowledgeNode} (h : n ∈ nodes) :
    ∃ n', findNode nodes n.nodeId = some n' := by
  have : (nodes.find? fun m => m.nodeId == n.nodeId).isSome :=
    List.find?_isSome.2 ⟨n, h, by simp⟩
  exact Option.isSome_iff_exists.1 this

theorem dotProduct_self (v : List ℕ) : dotProduct v v = sumOfSquares v := by
  induction v with
  | nil => rfl
  | cons x xs ih => simp [dotProduct, sumOfSquares, ih]

theorem cosine_zero_left (v1 v2 : List ℕ) (h : sumOfSquares v1 = 0) :
    calculateCosineSimilarity v1 v2 = 0 := by
  have hs : Real.sqrt ((sumOfSquares v1 : ℕ) : ℝ) = 0 := by
    rw [h]; simp
  simp [calculateCosineSimilarity, hs]

theorem cosine_dot_zero (v1 v2 : List ℕ) (h : dotProduct v1 v2 = 0) :
    calculateCosineSimilarity v1 v2 = 0 := by
  simp only [calculateCosineSimilarity, h]
  split <;> simp

theorem cosine_self (v : List ℕ) (h : sumOfSquares v ≠ 0) :
    calculateCosineSimilarity v v = 1 := by
  have hpos : (0 : ℝ) < ((sumOfSquares v : ℕ) : ℝ) := by
    exact_mod_cast Nat.pos_of_ne_zero h
  have hs : Real.sqrt ((sumOfSquares v : ℕ) : ℝ) ≠ 0 :=
    (Real.sqrt_pos.mpr hpos).ne'
  simp only [calculateCosineSimilarity, dotProduct_self]
  rw [if_neg (by push_neg; exact ⟨hs, hs⟩), Real.mul_self_sqrt hpos.le]
  exact div_self (ne_of_gt hpos)

/-! Claim C1: self-similarity. -/

/-- Claim C1 counterexample: for the featureless agent node x,
analyzeSemanticSimilarity(1, x, x) returns similarity 0, not 1.0 — the
claim that every node is maximally similar to itself regardless of nodeType
fails on nodes whose feature vector is zero. -/
theorem claim_C1_counterexample :
    simOf (analyzeSemanticSimilarity demoC1 1 "x" "x") = some 0 ∧ (0 : ℝ) ≠ 1 := by
  constructor
  · have hv : sumOfSquares (extractSemanticFeatures nodeAgentX).vector = 0 := by decide
    have hz := cosine_zero_left (extractSemanticFeatures nodeAgentX).vector
      (extractSemanticFeatures nodeAgentX).vector hv
    simp [simOf, analyzeSemanticSimilarity, demoC1, findNode, nodeAgentX, analyzeCompute,
      List.lookup]
    simpa [nodeAgentX] using hz
  · norm_num

/-- Claim C1 amended: analyzeSemanticSimilarity(p, n, n) returns similarity
1.0 for every node n whose extracted feature vector is nonzero; a node that
yields no semantic features (zero vector) gets similarity 0 instead. -/
theorem claim_C1_amended (nodes : List KnowledgeNode) (node : KnowledgeNode)
    (h : sumOfSquares (extractSemanticFeatures node).vector ≠ 0) :
    (analyzeCompute nodes node node).similarity = 1 := by
  simpa [analyzeCompute] using cosine_self (extractSemanticFeatures node).vector h

/-- Witness for the amended claim C1 at the concrete code node a. -/
theorem claim_C1_witness :
    sumOfSquares (extractSemanticFeatures nodeCodeA).vector ≠ 0 ∧
      (analyzeCompute [nodeCodeA] nodeCodeA nodeCodeA).similarity = 1 :=
  ⟨by decide, claim_C1_amended [nodeCodeA] nodeCodeA (by decide)⟩

/-! Claim C3: graph density. -/

/-- Claim C3 counterexample: when both directions of an edge are stored (one
entry on each endpoint), the 2-node graph yields density 2, outside [0, 1]:
the stored-entry count is divided by n(n-1)/2 without deduplication. -/
theorem claim_C3_counterexample :
    (computeGraphMetrics demoMirror).density = 2 ∧
      ¬ (computeGraphMetrics demoMirror).density ≤ 1 := by
  have hd : (computeGraphMetrics demoMirror).density = calculateGraphDensity 2 2 := rfl
  have hv : calculateGraphDensity 2 2 = 2 := by
    rw [calculateGraphDensity, if_neg (by norm_num)]
    norm_num
  constructor
  · rw [hd, hv]
  · rw [hd, hv]; norm_num

/-- Claim C3 amended: density is the stored-connection-entry count divided
by n(n-1)/2 (0 when n is less than 2); it is 0 exactly on edge-entry-free
graphs, equals 1 when the stored entries number exactly n(n-1)/2, and is
always nonnegative — but it is not bounded by 1, since mirrored storage can
push the entry count past n(n-1)/2. -/
theorem claim_C3_amended (nodes : List KnowledgeNode) :
    (nodes.length < 2 → (computeGraphMetrics nodes).density = 0) ∧
    ((extractConnections nodes).length = 0 → (computeGraphMetrics nodes).density = 0) ∧
    (0 ≤ (computeGraphMetrics nodes).density) ∧
    (2 ≤ nodes.length →
      ((extractConnections nodes).length : ℝ)
        = (nodes.length : ℝ) * ((nodes.length : ℝ) - 1) / 2 →
      (computeGraphMetrics nodes).density = 1) := by
  have hd : (computeGraphMetrics nodes).density
      = calculateGraphDensity nodes.length (extractConnections nodes).length := rfl
  refine ⟨?_, ?_, ?_, ?_⟩
  · intro h
    rw [hd, calculateGraphDensity, if_pos h]
  · intro h
    rw [hd, calculateGraphDensity, h]
    split <;> simp
  · rw [hd, calculateGraphDensity]
    split
    · exact le_refl 0
    · rename_i h
      have h2 : (2 : ℝ) ≤ (nodes.length : ℝ) := by exact_mod_cast Nat.not_lt.1 h
      apply div_nonneg (Nat.cast_nonneg _)
      nlinarith
  · intro h2 hE
    rw [hd, calculateGraphDensity, if_neg (by omega), hE]
    have h2r : (2 : ℝ) ≤ (nodes.length : ℝ) := by exact_mod_cast h2
    apply div_self
    nlinarith

/-- Witness for the amended claim C3 at three concrete graphs: the empty
project, the edge-free 2-node project, and the 2-node project storing the
single edge of the complete graph. -/
theorem claim_C3_witness :
    ((List.length ([] : List KnowledgeNode) < 2) ∧ (computeGraphMetrics []).density = 0) ∧
    ((extractConnections demoEmpty2).length = 0 ∧ (computeGraphMetrics demoEmpty2).density = 0) ∧
    (2 ≤ demoK2.length ∧
      ((extractConnections demoK2).length : ℝ)
        = (demoK2.length : ℝ) * ((demoK2.length : ℝ) - 1) / 2 ∧
      (computeGraphMetrics demoK2).density = 1) := by
  have hE : ((extractConnections demoK2).length : ℝ)
      = (demoK2.length : ℝ) * ((demoK2.length : ℝ) - 1) / 2 := by
    show ((1 : ℕ) : ℝ) = ((2 : ℕ) : ℝ) * (((2 : ℕ) : ℝ) - 1) / 2
    norm_num
  exact ⟨⟨by simp, (claim_C3_amended []).1 (by simp)⟩,
    ⟨rfl, (claim_C3_amended demoEmpty2).2.1 rfl⟩,
    ⟨by norm_num [demoK2], hE, (claim_C3_amended demoK2).2.2.2 (by norm_num [demoK2]) hE⟩⟩

/-! Claim C9: error behaviour on absent node ids. -/

/-- Evaluation helper: the related-nodes BFS on an empty queue returns the
accumulated result for every fuel value. -/
theorem findRelatedNodesBFS_nil (nodes : List KnowledgeNode) (maxDepth fuel : ℕ)
    (visited : List String) (result : List KnowledgeNode) :
    findRelatedNodesBFS nodes maxDepth fuel [] visited result = result := by
  cases fuel <;> rfl

/-- Claim C9 counterexample: findRelatedNodes on an absent nodeId silently
returns the empty list instead of failing with a node-not-found error (the
function has no absence check at all). -/
theorem claim_C9_counterexample :
    findNode [nodeAgentX] "zzz" = none ∧ findRelatedNodes [nodeAgentX] "zzz" 2 = [] :=
  ⟨rfl, rfl⟩

/-- Claim C9 amended: analyzeSemanticSimilarity (when the ordered pair is
not already cached) and suggestKnowledgeConnections fail with their
node-not-found errors on absent ids, but findRelatedNodes silently returns
the empty list. -/
theorem claim_C9_amended :
    (∀ (s : SystemState) (pid : ℕ) (n1 n2 : String),
      s.semanticCache.lookup (simKey n1 n2) = none →
      (findNode s.nodes n1 = none ∨ findNode s.nodes n2 = none) →
      analyzeSemanticSimilarity s pid n1 n2 = .error "One or both nodes not found") ∧
    (∀ (s : SystemState) (pid : ℕ) (nid : String) (k : ℕ),
      findNode s.nodes nid = none →
      suggestKnowledgeConnections s pid nid k = .error "Source node not found") ∧
    (∀ (nodes : List KnowledgeNode) (nid : String) (d : ℕ),
      findNode nodes nid = none → findRelatedNodes nodes nid d = []) := by
  refine ⟨?_, ?_, ?_⟩
  · intro s pid n1 n2 hc hf
    rcases hf with h | h
    · simp [analyzeSemanticSimilarity, hc, h]
    · cases hf1 : findNode s.nodes n1 <;> simp [analyzeSemanticSimilarity, hc, h, hf1]
  · intro s pid nid k h
    simp [suggestKnowledgeConnections, h]
  · intro nodes nid d h
    show findRelatedNodesBFS nodes d (totalConnections nodes + nodes.length + 1)
      [(nid, 0)] [] [] = []
    rw [findRelatedNodesBFS]
    simp only [List.not_mem_nil, Nat.not_lt_zero, or_self, if_false, h]
    exact findRelatedNodesBFS_nil _ _ _ _ _

/-- Witness for the amended claim C9 at concrete absent ids. -/
theorem claim_C9_witness :
    (demoC1.semanticCache.lookup (simKey "zzz" "x") = none ∧
      findNode demoC1.nodes "zzz" = none ∧
      analyzeSemanticSimilarity demoC1 1 "zzz" "x" = .error "One or both nodes not found") ∧
    (suggestKnowledgeConnections demoC1 1 "zzz" 5 = .error "Source node not found") ∧
    (findNode [nodeCodeA] "zzz" = none ∧ findRelatedNodes [nodeCodeA] "zzz" 2 = []) :=
  ⟨⟨rfl, rfl, claim_C9_amended.1 demoC1 1 "zzz" "x" rfl (Or.inl rfl)⟩,
    claim_C9_amended.2.1 demoC1 1 "zzz" 5 rfl,
    ⟨rfl, claim_C9_amended.2.2 [nodeCodeA] "zzz" 2 rfl⟩⟩

/-! Claim C10: clustering coefficient. -/

theorem matrixSet_length (m : List (List ℝ)) (i j : ℕ) (x : ℝ) :
    (matrixSet m i j x).length = m.length := by
  simp [matrixSet]

theorem buildAdjacencyMatrix_length (nodes : List KnowledgeNode)
    (connections : List KnowledgeConnection) :
    (buildAdjacencyMatrix nodes connections).length = nodes.length := by
  have h : ∀ (cs : List KnowledgeConnection) (m : List (List ℝ)),
      (cs.foldl (fun matrix conn =>
        match nodes.findIdx? (fun n => n.nodeId == conn.fromId),
              nodes.findIdx? (fun n => n.nodeId == conn.toId) with
        | some fromIndex, some toIndex =>
            matrixSet (matrixSet matrix fromIndex toIndex conn.weight) toIndex fromIndex
              conn.weight
        | _, _ => matrix) m).length = m.length := by
    intro cs
    induction cs with
    | nil => intro m; rfl
    | cons c t ih =>
      intro m
      rw [List.foldl_cons, ih]
      split <;> simp [matrixSet]
  show (connections.foldl _ (List.replicate nodes.length (List.replicate nodes.length 0))).length
    = nodes.length
  rw [h]
  exact List.length_replicate _ _

/-- Skip-accumulate fold used by the clustering coefficient, rewritten as a
sum over the non-skipped entries. -/
theorem clustering_fold (M : List (List ℝ)) (nbrs : ℕ → List ℕ) (l : List ℕ) (a : ℝ) :
    l.foldl (fun totalCoefficient i =>
        if (nbrs i).length < 2 then totalCoefficient
        else totalCoefficient + (countAdjacentPairs M (nbrs i) : ℝ)
          / ((((nbrs i).length : ℝ) * (((nbrs i).length : ℝ) - 1)) / 2)) a
      = a + ((l.filter fun i => !decide ((nbrs i).length < 2)).map fun i =>
          (countAdjacentPairs M (nbrs i) : ℝ)
            / ((((nbrs i).length : ℝ) * (((nbrs i).length : ℝ) - 1)) / 2)).sum := by
  induction l generalizing a with
  | nil => simp
  | cons x t ih =>
    by_cases h : (nbrs x).length < 2
    · simp [List.foldl_cons, h, ih]
    · simp [List.foldl_cons, h, ih, add_assoc]

/-- Claim C10 amended: the clustering value returned by
calculateGraphMetrics is the sum of the local coefficients of the nodes
with at least 2 neighbours divided by the TOTAL node count n — nodes with
fewer than 2 neighbours are skipped from the sum but still counted in the
denominator. -/
theorem claim_C10_amended (nodes : List KnowledgeNode) :
    (computeGraphMetrics nodes).clustering
      = (localCoefficients (buildAdjacencyMatrix nodes (extractConnections nodes))).sum
        / (nodes.length : ℝ) := by
  have hlen := buildAdjacencyMatrix_length nodes (extractConnections nodes)
  show calculateClusteringCoefficient (buildAdjacencyMatrix nodes (extractConnections nodes)) = _
  simp only [calculateClusteringCoefficient, localCoefficients]
  rw [clustering_fold (buildAdjacencyMatrix nodes (extractConnections nodes))
    (fun i => (List.range (buildAdjacencyMatrix nodes (extractConnections nodes)).length).filter
      fun j => decide (0 < matrixGet (buildAdjacencyMatrix nodes (extractConnections nodes)) i j)),
    zero_add, hlen]

/-- Claim C10 counterexample: on the triangle-plus-isolated-node graph the
source returns 3/4 (sum of the three local coefficients divided by the full
node count 4), while the spec's mean over qualifying nodes is 1. -/
theorem claim_C10_counterexample :
    (computeGraphMetrics demoTriangle).clustering = 3 / 4 ∧
    clusteringSpecMean (buildAdjacencyMatrix demoTriangle (extractConnections demoTriangle)) = 1 ∧
    ((3 : ℝ) / 4) ≠ 1 := by
  have nab : ¬ ("a" : String) = "b" := by decide
  have nac : ¬ ("a" : String) = "c" := by decide
  have nbc : ¬ ("b" : String) = "c" := by decide
  have hM : buildAdjacencyMatrix demoTriangle (extractConnections demoTriangle)
      = [[0, 1, 1, 0], [1, 0, 1, 0], [1, 1, 0, 0], [0, 0, 0, 0]] := by
    norm_num [buildAdjacencyMatrix, extractConnections, demoTriangle, matrixSet, matrixGet,
      jsOrReal, nab, nac, nbc, List.replicate, List.set]
  have hclus : (computeGraphMetrics demoTriangle).clustering
      = calculateClusteringCoefficient
          (buildAdjacencyMatrix demoTriangle (extractConnections demoTriangle)) := rfl
  refine ⟨?_, ?_, by norm_num⟩
  · rw [hclus, hM]
    norm_num [calculateClusteringCoefficient, List.range_succ, List.filter, matrixGet,
      countAdjacentPairs]
  · rw [hM]
    norm_num [clusteringSpecMean, localCoefficients, List.range_succ, List.filter, matrixGet,
      countAdjacentPairs]

/-! Claim C5: similarity cache keying. -/

/-- Evaluation helper: analyzing (a, b) in demoAB computes the pure result
and caches it under the ordered key a_b. -/
theorem analyze_demoAB_eval :
    analyzeSemanticSimilarity demoAB 1 "a" "b" = .ok (resultAB, demoAB1) := rfl

/-- Claim C5 counterexample: after analyze(a, b), the reversed call
analyze(b, a) misses the ordered cache key and recomputes: it returns
relationshipStrength 0 (node b stores no edge to a) while analyze(a, b)
returned 0.8 (the stored a -> b weight), so the two orders do not share a
cache entry nor a result. -/
theorem claim_C5_counterexample :
    rsOf (analyzeSemanticSimilarity demoAB 1 "a" "b") = some 0.8 ∧
    rsOf (analyzeSemanticSimilarity demoAB1 1 "b" "a") = some 0 ∧
    (0.8 : ℝ) ≠ 0 := by
  refine ⟨?_, ?_, by norm_num⟩
  · have h1 : rsOf (analyzeSemanticSimilarity demoAB 1 "a" "b")
        = some (analyzeRelationshipStrength nodeA nodeB) := rfl
    rw [h1]
    norm_num [analyzeRelationshipStrength, nodeA, nodeB, jsOrReal]
  · have h2 : rsOf (analyzeSemanticSimilarity demoAB1 1 "b" "a")
        = some (analyzeRelationshipStrength nodeB nodeA) := rfl
    rw [h2]
    norm_num [analyzeRelationshipStrength, nodeA, nodeB]

/-- Claim C5 amended: the memoization key is the ORDERED pair
nodeId1_nodeId2: repeating a call with the same argument order returns the
cached entry and leaves the state unchanged, while the reversed order is a
separate cache entry whose result can differ (see the counterexample). -/
theorem claim_C5_amended (s : SystemState) (pid : ℕ) (a b : String)
    (r : SimilarityResult) (s' : SystemState)
    (h : analyzeSemanticSimilarity s pid a b = .ok (r, s')) :
    analyzeSemanticSimilarity s' pid a b = .ok (r, s') := by
  unfold analyzeSemanticSimilarity at h ⊢
  simp only [] at h ⊢
  cases hc : List.lookup (simKey a b) s.semanticCache with
  | some r0 =>
    rw [hc] at h
    obtain ⟨rfl, rfl⟩ : r0 = r ∧ s = s' := by
      constructor <;> [exact congrArg (fun e => match e with
        | .ok p => p.1
        | .error _ => r0) h;
        exact congrArg (fun e => match e with
        | .ok p => p.2
        | .error _ => s) h]
    rw [hc]
  | none =>
    rw [hc] at h
    cases hf1 : findNode s.nodes a <;> rw [hf1] at h
    · cases h
    · cases hf2 : findNode s.nodes b <;> rw [hf2] at h
      · cases h
      · rename_i n1 n2
        obtain ⟨rfl, rfl⟩ : analyzeCompute s.nodes n1 n2 = r ∧
            ({ s with semanticCache :=
                s.semanticCache ++ [(simKey a b, analyzeCompute s.nodes n1 n2)] } : SystemState)
              = s' := by
          constructor <;> [exact congrArg (fun e => match e with
            | .ok p => p.1
            | .error _ => analyzeCompute s.nodes n1 n2) h;
            exact congrArg (fun e => match e with
            | .ok p => p.2
            | .error _ => s) h]
        have hl : List.lookup (simKey a b)
            (s.semanticCache ++ [(simKey a b, analyzeCompute s.nodes n1 n2)])
              = some (analyzeCompute s.nodes n1 n2) := by
          rw [lookup_append, hc]
          simp [List.lookup]
        rw [hl]

/-- Witness for the amended claim C5: repeating analyze(a, b) on demoAB
returns the identical cached outcome. -/
theorem claim_C5_witness :
    analyzeSemanticSimilarity demoAB 1 "a" "b" = .ok (resultAB, demoAB1) ∧
    analyzeSemanticSimilarity demoAB1 1 "a" "b" = .ok (resultAB, demoAB1) :=
  ⟨analyze_demoAB_eval, claim_C5_amended demoAB 1 "a" "b" resultAB demoAB1 analyze_demoAB_eval⟩

/-! Claim C4: suggestions versus existing edges. -/

/-- Evaluation helper: suggesting connections for a in demoAB returns the
single suggestion towards b — although a already stores an edge to b. -/
theorem suggest_demoAB_eval :
    suggestKnowledgeConnections demoAB 1 "a" 5 = .ok ([suggestionB], demoAB1) := by
  have hsim : resultAB.similarity = 1 := by
    show calculateCosineSimilarity (extractSemanticFeatures nodeA).vector
      (extractSemanticFeatures nodeB).vector = 1
    show calculateCosineSimilarity (extractSemanticFeatures nodeA).vector
      (extractSemanticFeatures nodeA).vector = 1
    exact cosine_self _ (by decide)
  have hguard : (0.6 : ℝ) < resultAB.similarity := by rw [hsim]; norm_num
  show (match findNode demoAB.nodes "a" with
    | none => Except.error "Source node not found"
    | some sourceNode =>
      match suggestScan 1 "a" sourceNode demoAB.nodes demoAB [] with
      | Except.error e => Except.error e
      | Except.ok (suggestions, s') =>
        Except.ok ((suggestions.mergeSort fun a b => decide (b.confidence ≤ a.confidence)).take 5,
          s'))
    = Except.ok ([suggestionB], demoAB1)
  rw [show findNode demoAB.nodes "a" = some nodeA from rfl]
  simp only []
  have hscan : suggestScan 1 "a" nodeA demoAB.nodes demoAB [] = .ok ([suggestionB], demoAB1) := by
    show (if ("a" : String) = "a" then suggestScan 1 "a" nodeA [nodeB] demoAB []
      else match analyzeSemanticSimilarity demoAB 1 "a" "a" with
        | Except.error e => Except.error e
        | Except.ok (similarity, s') =>
          if 0.6 < similarity.similarity then suggestScan 1 "a" nodeA [nodeB] s'
              ([] ++ [{ targetNodeId := nodeA.nodeId
                        connectionType := predictConnectionType nodeA nodeA
                        confidence := calculateConnectionConfidence nodeA nodeA similarity
                        reasoning := generateConnectionReasoning nodeA nodeA similarity }])
          else suggestScan 1 "a" nodeA [nodeB] s' []) = Except.ok ([suggestionB], demoAB1)
    rw [if_pos rfl]
    show (if ("b" : String) = "a" then suggestScan 1 "a" nodeA [] demoAB []
      else match analyzeSemanticSimilarity demoAB 1 "a" "b" with
        | Except.error e => Except.error e
        | Except.ok (similarity, s') =>
          if 0.6 < similarity.similarity then suggestScan 1 "a" nodeA [] s'
              ([] ++ [{ targetNodeId := nodeB.nodeId
                        connectionType := predictConnectionType nodeA nodeB
                        confidence := calculateConnectionConfidence nodeA nodeB similarity
                        reasoning := generateConnectionReasoning nodeA nodeB similarity }])
          else suggestScan 1 "a" nodeA [] s' []) = Except.ok ([suggestionB], demoAB1)
    rw [if_neg (by decide), analyze_demoAB_eval]
    simp only []
    show (if 0.6 < resultAB.similarity then
        suggestScan 1 "a" nodeA [] demoAB1 ([] ++ [suggestionB])
      else suggestScan 1 "a" nodeA [] demoAB1 []) = Except.ok ([suggestionB], demoAB1)
    rw [if_pos hguard]
    rfl
  rw [hscan]
  show Except.ok (([suggestionB].mergeSort fun a b => decide (b.confidence ≤ a.confidence)).take 5,
    demoAB1) = Except.ok ([suggestionB], demoAB1)
  rw [List.mergeSort_singleton]
  rfl

/-- Claim C4 counterexample: b is already a stored edge target of a, yet
suggestKnowledgeConnections(1, a, 5) proposes b — the loop only skips the
source node itself and never filters already-connected targets. -/
theorem claim_C4_counterexample :
    "b" ∈ (suggestionsOf (suggestKnowledgeConnections demoAB 1 "a" 5)).map (·.targetNodeId) ∧
    "b" ∈ nodeA.connections.map (·.nodeId) := by
  constructor
  · rw [suggest_demoAB_eval]
    show "b" ∈ [suggestionB].map (·.targetNodeId)
    simp [suggestionB]
  · simp [nodeA]

/-- Accumulator invariant of the suggestion scan: every accepted suggestion
targets a node other than the source. -/
theorem suggestScan_targets (pid : ℕ) (nid : String) (src : KnowledgeNode) :
    ∀ (targets : List KnowledgeNode) (s : SystemState) (acc : List ConnectionSuggestion)
      (out : List ConnectionSuggestion × SystemState),
      suggestScan pid nid src targets s acc = .ok out →
      (∀ sg ∈ acc, sg.targetNodeId ≠ nid) → ∀ sg ∈ out.1, sg.targetNodeId ≠ nid := by
  intro targets
  induction targets with
  | nil =>
    intro s acc out h hacc
    rw [suggestScan] at h
    cases h
    exact hacc
  | cons t ts ih =>
    intro s acc out h hacc
    rw [suggestScan] at h
    by_cases he : t.nodeId = nid
    · rw [if_pos he] at h
      exact ih _ _ _ h hacc
    · rw [if_neg he] at h
      cases ha : analyzeSemanticSimilarity s pid nid t.nodeId <;> rw [ha] at h
      · cases h
      · rename_i val
        obtain ⟨simres, s2⟩ := val
        simp only [] at h
        by_cases hg : (0.6 : ℝ) < simres.similarity
        · rw [if_pos hg] at h
          refine ih _ _ _ h ?_
          intro sg hsg
          rcases List.mem_append.1 hsg with hin | hin
          · exact hacc sg hin
          · rcases List.mem_singleton.1 hin with rfl
            exact he
        · rw [if_neg hg] at h
          exact ih _ _ _ h hacc

/-- Claim C4 amended: suggestKnowledgeConnections never proposes the source
node itself, but it does not exclude already-connected neighbours — a
stored edge target can reappear as a suggestion (see the counterexample);
duplicate acceptance is only mitigated later by addConnection's
max-weight merge. -/
theorem claim_C4_amended (s : SystemState) (pid : ℕ) (nid : String) (k : ℕ) :
    ∀ sg ∈ suggestionsOf (suggestKnowledgeConnections s pid nid k), sg.targetNodeId ≠ nid := by
  unfold suggestKnowledgeConnections
  cases hf : findNode s.nodes nid with
  | none => simp [suggestionsOf]
  | some src =>
    simp only []
    cases hs : suggestScan pid nid src s.nodes s [] with
    | error e => simp [suggestionsOf, hs]
    | ok val =>
      obtain ⟨suggs, s'⟩ := val
      simp only []
      intro sg hsg
      have h1 : sg ∈ suggs := by
        have h2 := List.take_subset k (suggs.mergeSort fun a b =>
          decide (b.confidence ≤ a.confidence)) hsg
        exact List.mem_mergeSort.1 h2
      exact suggestScan_targets pid nid src s.nodes s [] (suggs, s') hs (by simp) sg h1

/-- Witness for the amended claim C4 at the concrete run on demoAB. -/
theorem claim_C4_witness :
    suggestionB ∈ suggestionsOf (suggestKnowledgeConnections demoAB 1 "a" 5) ∧
      suggestionB.targetNodeId ≠ "a" := by
  have hm : suggestionB ∈ suggestionsOf (suggestKnowledgeConnections demoAB 1 "a" 5) := by
    rw [suggest_demoAB_eval]
    show suggestionB ∈ [suggestionB]
    simp
  exact ⟨hm, claim_C4_amended demoAB 1 "a" 5 suggestionB hm⟩

/-! Claim C6: evolution passes on edge weights. -/

/-- Evaluation helper: suggesting on a single-node project yields no
suggestions (the only candidate is the source itself) and leaves the state
untouched, for any cache contents. -/
theorem suggest_single_eval (n : KnowledgeNode) (c : List (String × SimilarityResult))
    (g : List (String × GraphMetrics)) :
    suggestKnowledgeConnections ⟨[n], c, g⟩ 1 n.nodeId 3 = .ok ([], ⟨[n], c, g⟩) := by
  unfold suggestKnowledgeConnections
  rw [show findNode [n] n.nodeId = some n from by simp [findNode]]
  simp only []
  rw [show suggestScan 1 n.nodeId n [n] ⟨[n], c, g⟩ [] = .ok ([], ⟨[n], c, g⟩) from by
    rw [suggestScan, if_pos rfl, suggestScan]]
  simp only [List.mergeSort_nil, List.take_nil]

/-- Weight arithmetic of the first strengthening pass. -/
theorem evolveWeight_08 : evolveConnectionWeight 0.8 0.8 = 0.88 := by
  rw [evolveConnectionWeight, if_pos (by norm_num), min_eq_right (by norm_num)]
  norm_num

/-- Weight arithmetic of the second strengthening pass. -/
theorem evolveWeight_088 : evolveConnectionWeight 0.88 0.88 = 0.968 := by
  rw [evolveConnectionWeight, if_pos (by norm_num), min_eq_right (by norm_num)]
  norm_num

/-- First evolution pass over the self-loop project: the 0.8 edge is
strengthened to 0.88. -/
theorem evolveFold_self1 (c : List (String × SimilarityResult))
    (g : List (String × GraphMetrics)) :
    evolveFold 1 [nodeSelf] ⟨[nodeSelf], c, g⟩ 0 0 0 []
      = .ok (⟨[nodeSelf88], c, g⟩, 0, 1, 0, []) := by
  have hsug := suggest_single_eval nodeSelf c g
  rw [evolveFold, hsug]
  simp only []
  rw [applySuggestions]
  norm_num [evolveConnections, getConnectionUsage, findNode, nodeSelf, evolveWeight_08,
    updateKnowledgeNode, applySuggestions, evolveFold, nodeSelf88]
  rw [evolveConnectionWeight, if_pos (by norm_num), min_eq_right (by norm_num)]
  norm_num

/-- Second evolution pass over the self-loop project: the 0.88 edge is
strengthened further to 0.968 instead of staying put. -/
theorem evolveFold_self2 (c : List (String × SimilarityResult))
    (g : List (String × GraphMetrics)) :
    evolveFold 1 [nodeSelf88] ⟨[nodeSelf88], c, g⟩ 0 0 0 []
      = .ok (⟨[nodeSelf968], c, g⟩, 0, 1, 0, []) := by
  have hsug := suggest_single_eval nodeSelf88 c g
  rw [evolveFold, hsug]
  simp only []
  rw [applySuggestions]
  norm_num [evolveConnections, getConnectionUsage, findNode, nodeSelf88, evolveWeight_088,
    updateKnowledgeNode, applySuggestions, evolveFold, nodeSelf968]
  rw [evolveConnectionWeight, if_pos (by norm_num), min_eq_right (by norm_num)]
  norm_num

/-- Density of the single-node post-pass project is 0 (fewer than 2
nodes). -/
theorem density_self88 : (computeGraphMetrics [nodeSelf88]).density = 0 := by
  show calculateGraphDensity 1 1 = 0
  rw [calculateGraphDensity, if_pos (by norm_num)]

/-- Full first evolveKnowledgeGraph pass on the self-loop project. -/
theorem evolve_self_eval1 (c : List (String × SimilarityResult))
    (g : List (String × GraphMetrics)) (hg : List.lookup "metrics_1" g = none) :
    evolveKnowledgeGraph ⟨[nodeSelf], c, g⟩ 1
      = .ok (⟨0, 1, 0, []⟩,
          ⟨[nodeSelf88], c, g ++ [("metrics_1", computeGraphMetrics [nodeSelf88])]⟩) := by
  rw [evolveKnowledgeGraph, evolveFold_self1 c g]
  simp only []
  rw [show calculateGraphMetrics ⟨[nodeSelf88], c, g⟩ 1
      = (computeGraphMetrics [nodeSelf88],
          ⟨[nodeSelf88], c, g ++ [("metrics_1", computeGraphMetrics [nodeSelf88])]⟩) from by
    rw [calculateGraphMetrics]
    simp only []
    rw [show ("metrics_" ++ toString (1 : ℕ)) = "metrics_1" from rfl, hg]]
  simp only []
  rw [if_neg (by rw [density_self88]; norm_num)]
  rw [if_neg (by norm_num : ¬ 5 < 0)]

/-- Full second evolveKnowledgeGraph pass on the self-loop project: the
metrics cache hit returns the stale entry and the weight drifts again. -/
theorem evolve_self_eval2 (c : List (String × SimilarityResult)) :
    evolveKnowledgeGraph ⟨[nodeSelf88], c,
        [("metrics_1", computeGraphMetrics [nodeSelf88])]⟩ 1
      = .ok (⟨0, 1, 0, []⟩,
          ⟨[nodeSelf968], c, [("metrics_1", computeGraphMetrics [nodeSelf88])]⟩) := by
  rw [evolveKnowledgeGraph,
    evolveFold_self2 c [("metrics_1", computeGraphMetrics [nodeSelf88])]]
  simp only []
  rw [show calculateGraphMetrics
      ⟨[nodeSelf968], c, [("metrics_1", computeGraphMetrics [nodeSelf88])]⟩ 1
      = (computeGraphMetrics [nodeSelf88],
          ⟨[nodeSelf968], c, [("metrics_1", computeGraphMetrics [nodeSelf88])]⟩) from by
    rw [calculateGraphMetrics]
    simp only []
    rw [show ("metrics_" ++ toString (1 : ℕ)) = "metrics_1" from rfl]
    simp [List.lookup]]
  simp only []
  rw [if_neg (by rw [density_self88]; norm_num)]
  rw [if_neg (by norm_num : ¬ 5 < 0)]

/-- Claim C6 counterexample: with the usage frequency synthesized from the
edge's own weight, back-to-back evolution passes are not idempotent — the
self-loop weight goes 0.8 to 0.88 to 0.968. -/
theorem claim_C6_counterexample :
    firstWeight (applyOp 1 demoSelf .evolve) = 0.88 ∧
    firstWeight (applyOp 1 (applyOp 1 demoSelf .evolve) .evolve) = 0.968 ∧
    (0.968 : ℝ) ≠ 0.88 := by
  have h1 : applyOp 1 demoSelf .evolve
      = ⟨[nodeSelf88], [], [("metrics_1", computeGraphMetrics [nodeSelf88])]⟩ := by
    rw [applyOp, show demoSelf = (⟨[nodeSelf], [], []⟩ : SystemState) from rfl,
      evolve_self_eval1 [] [] rfl]
    rfl
  have h2 : applyOp 1 (⟨[nodeSelf88], [],
        [("metrics_1", computeGraphMetrics [nodeSelf88])]⟩ : SystemState) .evolve
      = ⟨[nodeSelf968], [], [("metrics_1", computeGraphMetrics [nodeSelf88])]⟩ := by
    rw [applyOp, evolve_self_eval2 []]
  refine ⟨?_, ?_, by norm_num⟩
  · rw [h1]; rfl
  · rw [h1, h2]; rfl

/-- Claim C6 amended: because getConnectionUsage reports the edge's own
current weight as its usage frequency, one evolution step maps a weight w
to evolveConnectionWeight w w, and applying the step twice agrees with
applying it once exactly when the once-updated weight is a fixed point:
w in [0.3, 0.7], or the update clamped to 0.1 or reached 1.0.  All other
weights keep drifting multiplicatively pass after pass. -/
theorem claim_C6_amended (w : ℝ) (hlo : 0.1 ≤ w) (hhi : w ≤ 1) :
    evolveConnectionWeight (evolveConnectionWeight w w) (evolveConnectionWeight w w)
        = evolveConnectionWeight w w
      ↔ (0.3 ≤ w ∧ w ≤ 0.7) ∨ evolveConnectionWeight w w = 0.1
          ∨ evolveConnectionWeight w w = 1 := by
  unfold evolveConnectionWeight
  by_cases h1 : (0.7 : ℝ) < w
  · rw [if_pos h1]
    by_cases hc : (1.0 : ℝ) ≤ w * 1.1
    · rw [min_eq_left hc, if_pos (by norm_num : (0.7 : ℝ) < 1.0),
        min_eq_left (by norm_num : (1.0 : ℝ) ≤ 1.0 * 1.1)]
      norm_num
    · push_neg at hc
      rw [min_eq_right hc.le, if_pos (by nlinarith)]
      constructor
      · intro he
        exfalso
        rcases le_or_lt (w * 1.1 * 1.1) (1.0 : ℝ) with hq | hq
        · rw [min_eq_right hq] at he
          nlinarith
        · rw [min_eq_left hq.le] at he
          nlinarith
      · intro hor
        rcases hor with ⟨h3, h7⟩ | h01 | hone
        · linarith
        · nlinarith
        · nlinarith
  · rw [if_neg h1]
    by_cases h2 : w < 0.3
    · rw [if_pos h2]
      by_cases hc : w * 0.9 ≤ 0.1
      · rw [max_eq_left hc, if_neg (by norm_num : ¬ (0.7 : ℝ) < 0.1),
          if_pos (by norm_num : (0.1 : ℝ) < 0.3),
          max_eq_left (by norm_num : (0.1 : ℝ) * 0.9 ≤ 0.1)]
        norm_num
      · push_neg at hc
        rw [max_eq_right hc.le, if_neg (by nlinarith), if_pos (by nlinarith)]
        constructor
        · intro he
          exfalso
          rcases le_or_lt (w * 0.9 * 0.9) (0.1 : ℝ) with hq | hq
          · rw [max_eq_left hq] at he
            nlinarith
          · rw [max_eq_right hq.le] at he
            nlinarith
        · intro hor
          rcases hor with ⟨h3, h7⟩ | h01 | hone
          · linarith
          · nlinarith
          · nlinarith
    · rw [if_neg h2, if_neg h1, if_neg h2]
      constructor
      · intro _
        exact Or.inl ⟨not_lt.1 h2, not_lt.1 h1⟩
      · intro _
        rfl

/-- Witness for the amended claim C6 at the drifting weight 0.8. -/
theorem claim_C6_witness :
    (0.1 : ℝ) ≤ 0.8 ∧ (0.8 : ℝ) ≤ 1 ∧
      (evolveConnectionWeight (evolveConnectionWeight 0.8 0.8) (evolveConnectionWeight 0.8 0.8)
          = evolveConnectionWeight 0.8 0.8
        ↔ (0.3 ≤ (0.8 : ℝ) ∧ (0.8 : ℝ) ≤ 0.7) ∨ evolveConnectionWeight 0.8 0.8 = 0.1
            ∨ evolveConnectionWeight 0.8 0.8 = 1) :=
  ⟨by norm_num, by norm_num, claim_C6_amended 0.8 (by norm_num) (by norm_num)⟩

/-! Claim C7: cache invalidation on write paths. -/

/-- Analyze only ever appends to the similarity cache: existing entries (and
the metrics cache and the rows) survive. -/
theorem analyze_mono (s : SystemState) (pid : ℕ) (a b : String) (r : SimilarityResult)
    (s' : SystemState) (h : analyzeSemanticSimilarity s pid a b = .ok (r, s')) :
    (∀ k v, List.lookup k s.semanticCache = some v →
        List.lookup k s'.semanticCache = some v)
      ∧ s'.graphMetrics = s.graphMetrics ∧ s'.nodes = s.nodes := by
  unfold analyzeSemanticSimilarity at h
  simp only [] at h
  cases hc : List.lookup (simKey a b) s.semanticCache <;> rw [hc] at h
  · cases hf1 : findNode s.nodes a <;> rw [hf1] at h
    · cases h
    · cases hf2 : findNode s.nodes b <;> rw [hf2] at h
      · cases h
      · obtain ⟨-, rfl⟩ := Prod.mk.injEq .. ▸ Except.ok.inj h
        exact ⟨fun k v hv => lookup_mono _ hv, rfl, rfl⟩
  · obtain ⟨-, rfl⟩ := Prod.mk.injEq .. ▸ Except.ok.inj h
    exact ⟨fun k v hv => hv, rfl, rfl⟩

/-- Cache survival through the suggestion scan. -/
theorem suggestScan_mono (pid : ℕ) (nid : String) (src : KnowledgeNode) :
    ∀ (targets : List KnowledgeNode) (s : SystemState) (acc : List ConnectionSuggestion)
      (out : List ConnectionSuggestion × SystemState),
      suggestScan pid nid src targets s acc = .ok out →
      (∀ k v, List.lookup k s.semanticCache = some v →
          List.lookup k out.2.semanticCache = some v)
        ∧ out.2.graphMetrics = s.graphMetrics ∧ out.2.nodes = s.nodes := by
  intro targets
  induction targets with
  | nil =>
    intro s acc out h
    rw [suggestScan] at h
    cases h
    exact ⟨fun k v hv => hv, rfl, rfl⟩
  | cons t ts ih =>
    intro s acc out h
    rw [suggestScan] at h
    by_cases he : t.nodeId = nid
    · rw [if_pos he] at h
      exact ih _ _ _ h
    · rw [if_neg he] at h
      cases ha : analyzeSemanticSimilarity s pid nid t.nodeId <;> rw [ha] at h
      · cases h
      · rename_i val
        obtain ⟨simres, s2⟩ := val
        obtain ⟨hm1, hm2, hm3⟩ := analyze_mono s pid nid t.nodeId simres s2 ha
        simp only [] at h
        by_cases hg : (0.6 : ℝ) < simres.similarity
        · rw [if_pos hg] at h
          obtain ⟨ih1, ih2, ih3⟩ := ih _ _ _ h
          exact ⟨fun k v hv => ih1 k v (hm1 k v hv), ih2.trans hm2, ih3.trans hm3⟩
        · rw [if_neg hg] at h
          obtain ⟨ih1, ih2, ih3⟩ := ih _ _ _ h
          exact ⟨fun k v hv => ih1 k v (hm1 k v hv), ih2.trans hm2, ih3.trans hm3⟩

/-- Cache survival through suggestKnowledgeConnections. -/
theorem suggest_mono (s : SystemState) (pid : ℕ) (nid : String) (k : ℕ)
    (suggs : List ConnectionSuggestion) (s' : SystemState)
    (h : suggestKnowledgeConnections s pid nid k = .ok (suggs, s')) :
    (∀ k v, List.lookup k s.semanticCache = some v →
        List.lookup k s'.semanticCache = some v)
      ∧ s'.graphMetrics = s.graphMetrics ∧ s'.nodes = s.nodes := by
  unfold suggestKnowledgeConnections at h
  cases hf : findNode s.nodes nid <;> rw [hf] at h
  · cases h
  · simp only [] at h
    cases hs : suggestScan pid nid _ s.nodes s [] <;> rw [hs] at h
    · cases h
    · rename_i val
      obtain ⟨suggs0, s0⟩ := val
      obtain ⟨-, rfl⟩ := Prod.mk.injEq .. ▸ Except.ok.inj h
      exact suggestScan_mono pid nid _ s.nodes s [] (suggs0, s0) hs

/-- addConnection never touches either cache. -/
theorem addConnection_caches (s : SystemState) (f t ty : String) (w : ℝ) :
    (addConnection s f t ty w).semanticCache = s.semanticCache ∧
    (addConnection s f t ty w).graphMetrics = s.graphMetrics := by
  unfold addConnection
  cases hf : findNode s.nodes f
  · exact ⟨rfl, rfl⟩
  · exact ⟨rfl, rfl⟩

/-- Cache preservation through the suggestion-application loop. -/
theorem applySuggestions_caches (fromNodeId : String) :
    ∀ (suggs : List ConnectionSuggestion) (s : SystemState) (nc : ℕ) (ins : List String),
      (applySuggestions fromNodeId suggs s nc ins).1.semanticCache = s.semanticCache ∧
      (applySuggestions fromNodeId suggs s nc ins).1.graphMetrics = s.graphMetrics := by
  intro suggs
  induction suggs with
  | nil => intro s nc ins; exact ⟨rfl, rfl⟩
  | cons sg rest ih =>
    intro s nc ins
    rw [applySuggestions]
    by_cases hg : (0.8 : ℝ) < sg.confidence
    · rw [if_pos hg]
      obtain ⟨i1, i2⟩ := ih (addConnection s fromNodeId sg.targetNodeId sg.connectionType
        sg.confidence) (nc + 1) (ins ++ ["Added " ++ sg.connectionType ++ " connection: "
          ++ fromNodeId ++ " -> " ++ sg.targetNodeId])
      obtain ⟨a1, a2⟩ := addConnection_caches s fromNodeId sg.targetNodeId sg.connectionType
        sg.confidence
      exact ⟨i1.trans a1, i2.trans a2⟩
    · rw [if_neg hg]
      exact ih s nc ins

/-- Cache survival through the per-node evolution fold. -/
theorem evolveFold_mono (pid : ℕ) :
    ∀ (iter : List KnowledgeNode) (s : SystemState) (nc sc wc : ℕ) (ins : List String)
      (out : SystemState × ℕ × ℕ × ℕ × List String),
      evolveFold pid iter s nc sc wc ins = .ok out →
      (∀ k v, List.lookup k s.semanticCache = some v →
          List.lookup k out.1.semanticCache = some v)
        ∧ out.1.graphMetrics = s.graphMetrics := by
  intro iter
  induction iter with
  | nil =>
    intro s nc sc wc ins out h
    rw [evolveFold] at h
    cases h
    exact ⟨fun k v hv => hv, rfl⟩
  | cons node rest ih =>
    intro s nc sc wc ins out h
    rw [evolveFold] at h
    cases hs : suggestKnowledgeConnections s pid node.nodeId 3 <;> rw [hs] at h
    · cases h
    · rename_i val
      obtain ⟨suggs, s1⟩ := val
      obtain ⟨m1, m2, m3⟩ := suggest_mono s pid node.nodeId 3 suggs s1 hs
      simp only [] at h
      obtain ⟨ih1, ih2⟩ := ih _ _ _ _ _ _ h
      obtain ⟨a1, a2⟩ := applySuggestions_caches node.nodeId suggs s1 nc ins
      refine ⟨fun k v hv => ih1 k v ?_, ?_⟩
      · show List.lookup k (updateKnowledgeNode _ node.id _).semanticCache = some v
        rw [show (updateKnowledgeNode (applySuggestions node.nodeId suggs s1 nc ins).1 node.id
          (evolveConnections (applySuggestions node.nodeId suggs s1 nc ins).1 pid node.nodeId
            node.connections).1).semanticCache
          = (applySuggestions node.nodeId suggs s1 nc ins).1.semanticCache from rfl, a1]
        exact m1 k v hv
      · rw [ih2]
        show (updateKnowledgeNode _ node.id _).graphMetrics = s.graphMetrics
        rw [show (updateKnowledgeNode (applySuggestions node.nodeId suggs s1 nc ins).1 node.id
          (evolveConnections (applySuggestions node.nodeId suggs s1 nc ins).1 pid node.nodeId
            node.connections).1).graphMetrics
          = (applySuggestions node.nodeId suggs s1 nc ins).1.graphMetrics from rfl, a2, m2]

/-- Metrics reads only ever append to the metrics cache and never touch the
similarity cache. -/
theorem metrics_mono (s : SystemState) (pid : ℕ) :
    (∀ k v, List.lookup k s.graphMetrics = some v →
        List.lookup k (calculateGraphMetrics s pid).2.graphMetrics = some v)
      ∧ (calculateGraphMetrics s pid).2.semanticCache = s.semanticCache := by
  unfold calculateGraphMetrics
  simp only []
  cases hc : List.lookup ("metrics_" ++ toString pid) s.graphMetrics
  · exact ⟨fun k v hv => lookup_mono _ hv, rfl⟩
  · exact ⟨fun k v hv => hv, rfl⟩

/-- Cache survival through a full evolution pass. -/
theorem evolve_mono (s : SystemState) (pid : ℕ) (r : EvolveResult) (s' : SystemState)
    (h : evolveKnowledgeGraph s pid = .ok (r, s')) :
    (∀ k v, List.lookup k s.semanticCache = some v →
        List.lookup k s'.semanticCache = some v) ∧
    (∀ k v, List.lookup k s.graphMetrics = some v →
        List.lookup k s'.graphMetrics = some v) := by
  unfold evolveKnowledgeGraph at h
  cases hf : evolveFold pid s.nodes s 0 0 0 [] <;> rw [hf] at h
  · cases h
  · rename_i out
    obtain ⟨s1, nc, sc, wc, ins⟩ := out
    simp only [] at h
    obtain ⟨-, rfl⟩ := Prod.mk.injEq .. ▸ Except.ok.inj h
    obtain ⟨f1, f2⟩ := evolveFold_mono pid s.nodes s 0 0 0 [] (s1, nc, sc, wc, ins) hf
    obtain ⟨g1, g2⟩ := metrics_mono s1 pid
    constructor
    · intro k v hv
      rw [g2]
      exact f1 k v hv
    · intro k v hv
      exact g1 k v (f2 ▸ hv)

/-- Claim C7 counterexample: calculateGraphMetrics caches the edge-free
2-node metrics (density 0); addConnection then adds an edge WITHOUT
invalidating anything, and the next calculateGraphMetrics call still
returns the cached density 0 although a fresh computation on the changed
rows gives density 1. -/
theorem claim_C7_counterexample :
    (calculateGraphMetrics
        (addConnection (calculateGraphMetrics demoEmptyState 1).2 "a" "b" "uses" 0.5)
        1).1.density = 0 ∧
    (computeGraphMetrics
        (addConnection (calculateGraphMetrics demoEmptyState 1).2 "a" "b" "uses" 0.5).nodes
      ).density = 1 ∧
    (0 : ℝ) ≠ 1 := by
  refine ⟨?_, ?_, by norm_num⟩
  · have h1 : (calculateGraphMetrics
        (addConnection (calculateGraphMetrics demoEmptyState 1).2 "a" "b" "uses" 0.5)
        1).1 = computeGraphMetrics demoEmpty2 := rfl
    rw [h1]
    show calculateGraphDensity 2 0 = 0
    rw [calculateGraphDensity, if_neg (by norm_num)]
    norm_num
  · show calculateGraphDensity 2 1 = 1
    rw [calculateGraphDensity, if_neg (by norm_num)]
    norm_num

/-- Claim C7 amended: neither write path invalidates any cache entry —
addConnection leaves both caches untouched, and an evolution pass only ever
adds entries: every similarity or metrics cache entry present before the
write is still present, with the same value, after it. -/
theorem claim_C7_amended (s : SystemState) (f t ty : String) (w : ℝ) (pid : ℕ)
    (r : EvolveResult) (s' : SystemState) (k1 k2 : String) (v1 : SimilarityResult)
    (v2 : GraphMetrics) :
    ((addConnection s f t ty w).semanticCache = s.semanticCache ∧
      (addConnection s f t ty w).graphMetrics = s.graphMetrics) ∧
    (evolveKnowledgeGraph s pid = .ok (r, s') →
      (List.lookup k1 s.semanticCache = some v1 →
        List.lookup k1 s'.semanticCache = some v1) ∧
      (List.lookup k2 s.graphMetrics = some v2 →
        List.lookup k2 s'.graphMetrics = some v2)) := by
  refine ⟨addConnection_caches s f t ty w, fun h => ?_⟩
  obtain ⟨e1, e2⟩ := evolve_mono s pid r s' h
  exact ⟨e1 k1 v1, e2 k2 v2⟩

/-- Witness for the amended claim C7: the second evolution pass on the
self-loop project preserves a pre-existing similarity entry and the cached
metrics entry. -/
theorem claim_C7_witness :
    (evolveKnowledgeGraph ⟨[nodeSelf88], [("x_y", simRes0)],
        [("metrics_1", computeGraphMetrics [nodeSelf88])]⟩ 1
      = .ok (⟨0, 1, 0, []⟩, ⟨[nodeSelf968], [("x_y", simRes0)],
          [("metrics_1", computeGraphMetrics [nodeSelf88])]⟩)) ∧
    (List.lookup "x_y" [("x_y", simRes0)] = some simRes0 →
      List.lookup "x_y" [("x_y", simRes0)] = some simRes0) ∧
    (List.lookup "metrics_1" [("metrics_1", computeGraphMetrics [nodeSelf88])]
        = some (computeGraphMetrics [nodeSelf88]) →
      List.lookup "metrics_1" [("metrics_1", computeGraphMetrics [nodeSelf88])]
        = some (computeGraphMetrics [nodeSelf88])) :=
  ⟨evolve_self_eval2 [("x_y", simRes0)],
    (claim_C7_amended ⟨[nodeSelf88], [("x_y", simRes0)],
        [("metrics_1", computeGraphMetrics [nodeSelf88])]⟩ "a" "b" "uses" 0.5 1
        ⟨0, 1, 0, []⟩ ⟨[nodeSelf968], [("x_y", simRes0)],
          [("metrics_1", computeGraphMetrics [nodeSelf88])]⟩ "x_y" "metrics_1" simRes0
        (computeGraphMetrics [nodeSelf88])).2
      (evolve_self_eval2 [("x_y", simRes0)])⟩

/-! Claim C8: no duplicate edge targets. -/

theorem setWeightFirst_map (l : List Edge) (t : String) (w : ℝ) :
    (setWeightFirst l t w).map (·.nodeId) = l.map (·.nodeId) := by
  induction l with
  | nil => rfl
  | cons c cs ih =>
    rw [setWeightFirst]
    by_cases h : c.nodeId = t
    · rw [if_pos h]
      simp
    · rw [if_neg h]
      simp [ih]

theorem evolveConnections_map (s : SystemState) (pid : ℕ) (f : String) :
    ∀ l : List Edge, ((evolveConnections s pid f l).1).map (·.nodeId) = l.map (·.nodeId) := by
  intro l
  induction l with
  | nil => rfl
  | cons c cs ih =>
    rw [evolveConnections]
    by_cases h1 : (0.7 : ℝ) < getConnectionUsage s pid f c.nodeId
    · rw [if_pos h1]
      simp [ih]
    · rw [if_neg h1]
      by_cases h2 : getConnectionUsage s pid f c.nodeId < 0.3
      · rw [if_pos h2]
        simp [ih]
      · rw [if_neg h2]
        simp [ih]

theorem updateKnowledgeNode_nodup (s : SystemState) (id : ℕ) (conns : List Edge)
    (hs : NoDupTargets s.nodes) (hc : (conns.map (·.nodeId)).Nodup) :
    NoDupTargets (updateKnowledgeNode s id conns).nodes := by
  intro n hn
  rw [updateKnowledgeNode] at hn
  obtain ⟨n0, hn0, rfl⟩ := List.mem_map.1 hn
  by_cases h : n0.id = id
  · rw [if_pos h]
    exact hc
  · rw [if_neg h]
    exact hs n0 hn0

theorem addConnection_nodup (s : SystemState) (f t ty : String) (w : ℝ)
    (hs : NoDupTargets s.nodes) : NoDupTargets (addConnection s f t ty w).nodes := by
  unfold addConnection
  cases hf : findNode s.nodes f with
  | none => exact hs
  | some fromNode =>
    simp only []
    by_cases ha : (fromNode.connections.any fun c => c.nodeId == t) = true
    · rw [if_pos ha]
      refine updateKnowledgeNode_nodup s _ _ hs ?_
      rw [setWeightFirst_map]
      exact hs fromNode (findNode_eq hf).1
    · rw [if_neg ha]
      refine updateKnowledgeNode_nodup s _ _ hs ?_
      have ht : ∀ c ∈ fromNode.connections, c.nodeId ≠ t := by
        intro c hcm heq
        exact ha (List.any_eq_true.2 ⟨c, hcm, by simp [heq]⟩)
      rw [List.map_append, List.nodup_append]
      refine ⟨hs fromNode (findNode_eq hf).1, by simp, ?_⟩
      intro x hx hx2
      obtain ⟨c, hcm, rfl⟩ := List.mem_map.1 hx
      simp only [List.map_cons, List.map_nil, List.mem_singleton] at hx2
      exact ht c hcm hx2

theorem applySuggestions_nodup (f : String) :
    ∀ (suggs : List ConnectionSuggestion) (s : SystemState) (nc : ℕ) (ins : List String),
      NoDupTargets s.nodes → NoDupTargets (applySuggestions f suggs s nc ins).1.nodes := by
  intro suggs
  induction suggs with
  | nil => intro s nc ins hs; exact hs
  | cons sg rest ih =>
    intro s nc ins hs
    rw [applySuggestions]
    by_cases hg : (0.8 : ℝ) < sg.confidence
    · rw [if_pos hg]
      exact ih _ _ _ (addConnection_nodup _ _ _ _ _ hs)
    · rw [if_neg hg]
      exact ih _ _ _ hs

theorem metrics_nodes (s : SystemState) (pid : ℕ) :
    (calculateGraphMetrics s pid).2.nodes = s.nodes := by
  unfold calculateGraphMetrics
  simp only []
  cases List.lookup ("metrics_" ++ toString pid) s.graphMetrics <;> rfl

theorem evolveFold_nodup (pid : ℕ) :
    ∀ (iter : List KnowledgeNode) (s : SystemState) (nc sc wc : ℕ) (ins : List String)
      (out : SystemState × ℕ × ℕ × ℕ × List String),
      evolveFold pid iter s nc sc wc ins = .ok out →
      NoDupTargets s.nodes →
      (∀ n ∈ iter, (n.connections.map (·.nodeId)).Nodup) →
      NoDupTargets out.1.nodes := by
  intro iter
  induction iter with
  | nil =>
    intro s nc sc wc ins out h hs _
    rw [evolveFold] at h
    cases h
    exact hs
  | cons node rest ih =>
    intro s nc sc wc ins out h hs hiter
    rw [evolveFold] at h
    cases hsug : suggestKnowledgeConnections s pid node.nodeId 3 <;> rw [hsug] at h
    · cases h
    · rename_i val
      obtain ⟨suggs, s1⟩ := val
      obtain ⟨-, -, hnodes⟩ := suggest_mono s pid node.nodeId 3 suggs s1 hsug
      simp only [] at h
      refine ih _ _ _ _ _ _ h ?_ (fun n hn => hiter n (List.mem_cons_of_mem node hn))
      have hs1 : NoDupTargets s1.nodes := by rw [hnodes]; exact hs
      have hs2 := applySuggestions_nodup node.nodeId suggs s1 nc ins hs1
      refine updateKnowledgeNode_nodup _ _ _ hs2 ?_
      rw [evolveConnections_map]
      exact hiter node (List.mem_cons_self node rest)

theorem evolve_nodup (s : SystemState) (pid : ℕ) (r : EvolveResult) (s' : SystemState)
    (h : evolveKnowledgeGraph s pid = .ok (r, s')) (hs : NoDupTargets s.nodes) :
    NoDupTargets s'.nodes := by
  unfold evolveKnowledgeGraph at h
  cases hf : evolveFold pid s.nodes s 0 0 0 [] <;> rw [hf] at h
  · cases h
  · rename_i out
    obtain ⟨s1, nc, sc, wc, ins⟩ := out
    simp only [] at h
    obtain ⟨-, rfl⟩ := Prod.mk.injEq .. ▸ Except.ok.inj h
    have h1 := evolveFold_nodup pid s.nodes s 0 0 0 [] (s1, nc, sc, wc, ins) hf hs
      (fun n hn => hs n hn)
    intro n hn
    rw [metrics_nodes] at hn
    exact h1 n hn

/-- Claim C8 confirmed: starting from a state without duplicate edge
targets, any sequence of evolution passes and direct edge additions
preserves the invariant — an addition towards an existing target merges by
max weight instead of appending, and the evolution pass only re-weights or
merge-adds. -/
theorem claim_C8 (pid : ℕ) (ops : List GraphOp) (s : SystemState)
    (hs : NoDupTargets s.nodes) : NoDupTargets (runOps pid s ops).nodes := by
  induction ops generalizing s with
  | nil => exact hs
  | cons op rest ih =>
    show NoDupTargets (List.foldl (applyOp pid) (applyOp pid s op) rest).nodes
    refine ih (applyOp pid s op) ?_
    cases op with
    | evolve =>
      rw [applyOp]
      cases he : evolveKnowledgeGraph s pid with
      | error e => exact hs
      | ok r => exact evolve_nodup s pid r.1 r.2 (by rw [he]) hs
    | addConn f t ty w =>
      exact addConnection_nodup s f t ty w hs

/-- Witness for claim C8 at a concrete duplicate-free start state and a
concrete operation sequence. -/
theorem claim_C8_witness :
    NoDupTargets demoSelf.nodes ∧
      NoDupTargets (runOps 1 demoSelf [.addConn "a" "b" "uses" 0.5, .evolve]).nodes := by
  have hs : NoDupTargets demoSelf.nodes := by
    intro n hn
    rcases List.mem_singleton.1 hn with rfl
    simp [nodeSelf]
  exact ⟨hs, claim_C8 1 [.addConn "a" "b" "uses" 0.5, .evolve] demoSelf hs⟩

/-! Claim C2: the star-shaped cluster guarantee. -/

theorem cacheConsistent_nil (nodes : List KnowledgeNode) : CacheConsistent nodes [] := by
  intro k r h
  cases h

/-- On a consistent cache with injective keys, analyze returns exactly the
cache-miss computation for the resolved pair, and preserves consistency. -/
theorem analyze_consistent (s : SystemState) (pid : ℕ) (a b : String)
    (na nb : KnowledgeNode) (hinj : SimKeyInjective s.nodes)
    (hcons : CacheConsistent s.nodes s.semanticCache)
    (ha : findNode s.nodes a = some na) (hb : findNode s.nodes b = some nb) :
    ∃ s', analyzeSemanticSimilarity s pid a b = .ok (analyzeCompute s.nodes na nb, s')
      ∧ s'.nodes = s.nodes ∧ s'.graphMetrics = s.graphMetrics
      ∧ CacheConsistent s.nodes s'.semanticCache := by
  unfold analyzeSemanticSimilarity
  simp only []
  cases hc : List.lookup (simKey a b) s.semanticCache with
  | some r =>
    obtain ⟨a', b', n1, n2, ha', hb', hk, hf1, hf2, hr⟩ := hcons _ _ hc
    obtain ⟨rfl, rfl⟩ := hinj a (findNode_mem_ids ha) b (findNode_mem_ids hb) a' ha' b' hb' hk
    obtain rfl : n1 = na := Option.some.inj (hf1.symm.trans ha)
    obtain rfl : n2 = nb := Option.some.inj (hf2.symm.trans hb)
    exact ⟨s, by rw [hr], rfl, rfl, hcons⟩
  | none =>
    rw [ha, hb]
    refine ⟨_, rfl, rfl, rfl, ?_⟩
    intro k r hk
    rw [lookup_append] at hk
    cases hc2 : List.lookup k s.semanticCache with
    | some r2 =>
      rw [hc2] at hk
      obtain rfl : r2 = r := Option.some.inj hk
      exact hcons _ _ hc2
    | none =>
      rw [hc2] at hk
      by_cases hkey : k = simKey a b
      · simp only [List.lookup, hkey, beq_self_eq_true] at hk
        obtain rfl : analyzeCompute s.nodes na nb = r := Option.some.inj hk
        exact ⟨a, b, na, nb, findNode_mem_ids ha, findNode_mem_ids hb, hkey, ha, hb, rfl⟩
      · rw [show List.lookup k [(simKey a b, analyzeCompute s.nodes na nb)] = none from by
          simp [List.lookup, beq_eq_false_iff_ne.mpr hkey]] at hk
        cases hk

/-- Analyze preserves cache consistency (and the rows and metrics cache)
regardless of which pair it is given. -/
theorem analyze_consistent_any (s : SystemState) (pid : ℕ) (a b : String)
    (r : SimilarityResult) (s' : SystemState)
    (hcons : CacheConsistent s.nodes s.semanticCache)
    (h : analyzeSemanticSimilarity s pid a b = .ok (r, s')) :
    s'.nodes = s.nodes ∧ s'.graphMetrics = s.graphMetrics
      ∧ CacheConsistent s.nodes s'.semanticCache := by
  unfold analyzeSemanticSimilarity at h
  simp only [] at h
  cases hc : List.lookup (simKey a b) s.semanticCache <;> rw [hc] at h
  · cases hf1 : findNode s.nodes a <;> rw [hf1] at h
    · cases h
    · cases hf2 : findNode s.nodes b <;> rw [hf2] at h
      · cases h
      · rename_i na nb
        obtain ⟨-, rfl⟩ := Prod.mk.injEq .. ▸ Except.ok.inj h
        refine ⟨rfl, rfl, ?_⟩
        intro k r0 hk
        rw [lookup_append] at hk
        cases hc2 : List.lookup k s.semanticCache with
        | some r2 =>
          rw [hc2] at hk
          obtain rfl : r2 = r0 := Option.some.inj hk
          exact hcons _ _ hc2
        | none =>
          rw [hc2] at hk
          by_cases hkey : k = simKey a b
          · simp only [List.lookup, hkey, beq_self_eq_true] at hk
            obtain rfl : analyzeCompute s.nodes na nb = r0 := Option.some.inj hk
            exact ⟨a, b, na, nb, findNode_mem_ids hf1, findNode_mem_ids hf2, hkey, hf1, hf2, rfl⟩
          · rw [show List.lookup k [(simKey a b, analyzeCompute s.nodes na nb)] = none from by
              simp [List.lookup, beq_eq_false_iff_ne.mpr hkey]] at hk
            cases hk
  · obtain ⟨-, rfl⟩ := Prod.mk.injEq .. ▸ Except.ok.inj h
    exact ⟨rfl, rfl, hcons⟩

/-- Every node returned by the related-nodes BFS is a row of the project. -/
theorem findRelatedNodesBFS_mem (nodes : List KnowledgeNode) (maxDepth : ℕ) :
    ∀ (fuel : ℕ) (queue : List (String × ℕ)) (visited : List String)
      (result : List KnowledgeNode) (x : KnowledgeNode),
      x ∈ findRelatedNodesBFS nodes maxDepth fuel queue visited result →
      x ∈ result ∨ x ∈ nodes := by
  intro fuel
  induction fuel with
  | zero =>
    intro queue visited result x h
    rw [findRelatedNodesBFS] at h
    exact Or.inl h
  | succ fuel ih =>
    intro queue visited result x h
    cases queue with
    | nil =>
      rw [findRelatedNodesBFS] at h
      exact Or.inl h
    | cons p queue =>
      obtain ⟨cur, depth⟩ := p
      rw [findRelatedNodesBFS] at h
      by_cases hg : cur ∈ visited ∨ maxDepth < depth
      · rw [if_pos hg] at h
        exact ih _ _ _ _ h
      · rw [if_neg hg] at h
        cases hf : findNode nodes cur <;> rw [hf] at h
        · exact ih _ _ _ _ h
        · rename_i node
          rcases ih _ _ _ _ h with h0 | h1
          · rcases List.mem_append.1 h0 with h2 | h2
            · exact Or.inl h2
            · rcases List.mem_singleton.1 h2 with rfl
              exact Or.inr (findNode_eq hf).1
          · exact Or.inr h1

theorem findRelatedNodes_mem {nodes : List KnowledgeNode} {nid : String} {d : ℕ}
    {x : KnowledgeNode} (h : x ∈ findRelatedNodes nodes nid d) : x ∈ nodes := by
  rcases findRelatedNodesBFS_mem nodes d _ _ _ _ _ h with h0 | h1
  · cases h0
  · exact h1

/-- Scan invariant of the cluster expansion: new members all pass the
seed-similarity guard. -/
theorem expandScan_spec (pid : ℕ) (seed : String) (minSim : ℝ)
    (nodes0 : List KnowledgeNode) (seedNode : KnowledgeNode)
    (hinj : SimKeyInjective nodes0) (hseed : findNode nodes0 seed = some seedNode) :
    ∀ (rel : List KnowledgeNode) (s : SystemState) (visited cluster adds : List String)
      (out : SystemState × List String × List String × List String),
      s.nodes = nodes0 → CacheConsistent nodes0 s.semanticCache →
      (∀ r ∈ rel, r ∈ nodes0) →
      expandScan pid seed minSim rel s visited cluster adds = .ok out →
      out.1.nodes = nodes0 ∧ CacheConsistent nodes0 out.1.semanticCache ∧
      ∃ news, out.2.2.1 = cluster ++ news ∧
        ∀ m ∈ news, ∃ mn, findNode nodes0 m = some mn ∧
          minSim ≤ (analyzeCompute nodes0 seedNode mn).similarity := by
  intro rel
  induction rel with
  | nil =>
    intro s visited cluster adds out hn hcons _ h
    rw [expandScan] at h
    cases h
    exact ⟨hn, hcons, [], by simp, by simp⟩
  | cons r rest ih =>
    intro s visited cluster adds out hn hcons hrel h
    rw [expandScan] at h
    by_cases hv : r.nodeId ∈ visited
    · rw [if_pos hv] at h
      exact ih _ _ _ _ _ hn hcons (fun x hx => hrel x (List.mem_cons_of_mem r hx)) h
    · rw [if_neg hv] at h
      have hrmem : r ∈ nodes0 := hrel r (List.mem_cons_self r rest)
      obtain ⟨rn, hrn⟩ := mem_findNode hrmem
      have hinj' : SimKeyInjective s.nodes := by rw [hn]; exact hinj
      have hcons' : CacheConsistent s.nodes s.semanticCache := by rw [hn]; exact hcons
      have hseed' : findNode s.nodes seed = some seedNode := by rw [hn]; exact hseed
      have hrn' : findNode s.nodes r.nodeId = some rn := by rw [hn]; exact hrn
      obtain ⟨s1, hae, hs1n, -, hs1c⟩ :=
        analyze_consistent s pid seed r.nodeId seedNode rn hinj' hcons' hseed' hrn'
      rw [hae] at h
      simp only [] at h
      have hs1n0 : s1.nodes = nodes0 := hs1n.trans hn
      have hs1c0 : CacheConsistent nodes0 s1.semanticCache := by
        rw [← hn]; exact hs1c
      by_cases hg : minSim ≤ (analyzeCompute s.nodes seedNode rn).similarity
      · rw [if_pos hg] at h
        obtain ⟨o1, o2, news, hne, hnp⟩ :=
          ih _ _ _ _ _ hs1n0 hs1c0 (fun x hx => hrel x (List.mem_cons_of_mem r hx)) h
        refine ⟨o1, o2, r.nodeId :: news, by rw [hne]; simp, ?_⟩
        intro m hm
        rcases List.mem_cons.1 hm with rfl | hm2
        · exact ⟨rn, hrn, by rw [← hn]; exact hg⟩
        · exact hnp m hm2
      · rw [if_neg hg] at h
        exact ih _ _ _ _ _ hs1n0 hs1c0 (fun x hx => hrel x (List.mem_cons_of_mem r hx)) h

/-- Loop invariant of the cluster expansion. -/
theorem expandLoop_spec (pid : ℕ) (seed : String) (minSim : ℝ)
    (nodes0 : List KnowledgeNode) (seedNode : KnowledgeNode)
    (hinj : SimKeyInjective nodes0) (hseed : findNode nodes0 seed = some seedNode) :
    ∀ (fuel : ℕ) (queue : List String) (s : SystemState) (visited cluster : List String)
      (out : List String × SystemState × List String),
      s.nodes = nodes0 → CacheConsistent nodes0 s.semanticCache →
      expandLoop pid seed minSim fuel queue s visited cluster = .ok out →
      out.2.1.nodes = nodes0 ∧ CacheConsistent nodes0 out.2.1.semanticCache ∧
      ∃ news, out.1 = cluster ++ news ∧
        ∀ m ∈ news, ∃ mn, findNode nodes0 m = some mn ∧
          minSim ≤ (analyzeCompute nodes0 seedNode mn).similarity := by
  intro fuel
  induction fuel with
  | zero =>
    intro queue s visited cluster out hn hcons h
    rw [expandLoop] at h
    cases h
    exact ⟨hn, hcons, [], by simp, by simp⟩
  | succ fuel ih =>
    intro queue s visited cluster out hn hcons h
    cases queue with
    | nil =>
      rw [expandLoop] at h
      cases h
      exact ⟨hn, hcons, [], by simp, by simp⟩
    | cons cur queue =>
      rw [expandLoop] at h
      cases hsc : expandScan pid seed minSim (findRelatedNodes s.nodes cur 1) s visited
        cluster [] <;> rw [hsc] at h
      · cases h
      · rename_i val
        obtain ⟨s1, visited1, cluster1, adds1⟩ := val
        obtain ⟨p1, p2, news1, hne1, hnp1⟩ := expandScan_spec pid seed minSim nodes0 seedNode
          hinj hseed (findRelatedNodes s.nodes cur 1) s visited cluster [] (s1, visited1,
            cluster1, adds1) hn hcons
          (fun x hx => by rw [← hn]; exact findRelatedNodes_mem hx) hsc
        simp only [] at h
        obtain ⟨q1, q2, news2, hne2, hnp2⟩ := ih _ _ _ _ _ p1 p2 h
        refine ⟨q1, q2, news1 ++ news2, ?_, ?_⟩
        · rw [hne2]
          simp only [] at hne1
          rw [hne1, List.append_assoc]
        · intro m hm
          rcases List.mem_append.1 hm with hm1 | hm2
          · exact hnp1 m hm1
          · exact hnp2 m hm2

/-- The cohesion fold preserves the rows and cache consistency. -/
theorem cohesionFold_spec (pid : ℕ) (nodes0 : List KnowledgeNode) :
    ∀ (pairs : List (String × String)) (s : SystemState) (acc : ℝ) (cnt : ℕ)
      (out : ℝ × ℕ × SystemState),
      s.nodes = nodes0 → CacheConsistent nodes0 s.semanticCache →
      cohesionFold pid pairs s acc cnt = .ok out →
      out.2.2.nodes = nodes0 ∧ CacheConsistent nodes0 out.2.2.semanticCache := by
  intro pairs
  induction pairs with
  | nil =>
    intro s acc cnt out hn hcons h
    rw [cohesionFold] at h
    cases h
    exact ⟨hn, hcons⟩
  | cons p rest ih =>
    intro s acc cnt out hn hcons h
    obtain ⟨a, b⟩ := p
    rw [cohesionFold] at h
    cases ha : analyzeSemanticSimilarity s pid a b <;> rw [ha] at h
    · cases h
    · rename_i val
      obtain ⟨r, s1⟩ := val
      have hcons' : CacheConsistent s.nodes s.semanticCache := by rw [hn]; exact hcons
      obtain ⟨m1, -, m3⟩ := analyze_consistent_any s pid a b r s1 hcons' ha
      exact ih _ _ _ _ (m1.trans hn) (by rw [← hn]; exact m3) h

/-- Specification of one cluster expansion: the cluster is the seed followed
by members that all pass the seed-similarity guard. -/
theorem expandSemanticCluster_spec (s : SystemState) (pid : ℕ) (seed : String)
    (minSim : ℝ) (visited : List String) (nodes0 : List KnowledgeNode)
    (seedNode : KnowledgeNode) (hinj : SimKeyInjective nodes0)
    (hseed : findNode nodes0 seed = some seedNode) (hn : s.nodes = nodes0)
    (hcons : CacheConsistent nodes0 s.semanticCache)
    (cl : SemanticCluster) (s' : SystemState) (visited' : List String)
    (h : expandSemanticCluster s pid seed minSim visited = .ok (cl, s', visited')) :
    s'.nodes = nodes0 ∧ CacheConsistent nodes0 s'.semanticCache ∧
    ∃ tail, cl.nodes = seed :: tail ∧
      ∀ m ∈ tail, ∃ mn, findNode nodes0 m = some mn ∧
        minSim ≤ (analyzeCompute nodes0 seedNode mn).similarity := by
  unfold expandSemanticCluster at h
  cases hl : expandLoop pid seed minSim (s.nodes.length + 2) [seed] s (seed :: visited)
    [seed] <;> rw [hl] at h
  · cases h
  · rename_i val
    obtain ⟨cluster1, s1, visited1⟩ := val
    obtain ⟨p1, p2, news, hne, hnp⟩ := expandLoop_spec pid seed minSim nodes0 seedNode hinj
      hseed _ _ _ _ _ _ hn hcons hl
    simp only [] at h
    cases hcoh : calculateClusterCohesion s1 pid cluster1 <;> rw [hcoh] at h
    · cases h
    · rename_i val2
      obtain ⟨score, s2⟩ := val2
      obtain ⟨hcl2, hrest⟩ := Prod.mk.injEq .. ▸ Except.ok.inj h
      obtain ⟨hs2, -⟩ := Prod.mk.injEq .. ▸ hrest
      unfold calculateClusterCohesion at hcoh
      cases hcf : cohesionFold pid (allPairs cluster1) s1 0 0 <;> rw [hcf] at hcoh
      · cases hcoh
      · rename_i val3
        obtain ⟨tot, cnt, s3⟩ := val3
        obtain ⟨c1, c2⟩ := cohesionFold_spec pid nodes0 (allPairs cluster1) s1 0 0
          (tot, cnt, s3) p1 p2 hcf
        simp only [] at hcoh
        obtain ⟨-, hs3⟩ := Prod.mk.injEq .. ▸ Except.ok.inj hcoh
        have hcln : cl.nodes = cluster1 := by rw [← hcl2]
        refine ⟨?_, ?_, news, ?_, hnp⟩
        · rw [← hs2, ← hs3]; exact c1
        · rw [← hs2, ← hs3]; exact c2
        · rw [hcln]; exact hne

/-- The seed of a returned cluster also satisfies the star bound: if some
member passed the guard, the seed's self-similarity is either 1 (nonzero
vector) or 0 with the guard forcing minSim at most 0. -/
theorem seed_self_bound (nodes0 : List KnowledgeNode) (seedNode mNode : KnowledgeNode)
    (minSim : ℝ) (h1 : minSim ≤ 1)
    (hm : minSim ≤ (analyzeCompute nodes0 seedNode mNode).similarity) :
    minSim ≤ (analyzeCompute nodes0 seedNode seedNode).similarity := by
  by_cases hz : sumOfSquares (extractSemanticFeatures seedNode).vector = 0
  · have hm0 : (analyzeCompute nodes0 seedNode mNode).similarity = 0 :=
      cosine_zero_left _ _ hz
    have hs0 : (analyzeCompute nodes0 seedNode seedNode).similarity = 0 :=
      cosine_zero_left _ _ hz
    rw [hs0]
    rw [hm0] at hm
    exact hm
  · have hs1 : (analyzeCompute nodes0 seedNode seedNode).similarity = 1 :=
      cosine_self _ hz
    rw [hs1]
    exact h1

/-- Outer loop invariant of findSemanticClusters. -/
theorem clustersFold_spec (pid : ℕ) (minSim : ℝ) (nodes0 : List KnowledgeNode)
    (hinj : SimKeyInjective nodes0) (h1 : minSim ≤ 1) :
    ∀ (iter : List KnowledgeNode) (s : SystemState) (visited : List String)
      (clusters : List SemanticCluster) (out : List SemanticCluster × SystemState × List String),
      s.nodes = nodes0 → CacheConsistent nodes0 s.semanticCache →
      (∀ n ∈ iter, n ∈ nodes0) →
      (∀ cl ∈ clusters, ∃ seed seedNode, cl.nodes.head? = some seed ∧
        findNode nodes0 seed = some seedNode ∧
        ∀ m ∈ cl.nodes, ∃ mn, findNode nodes0 m = some mn ∧
          minSim ≤ (analyzeCompute nodes0 seedNode mn).similarity) →
      clustersFold pid minSim iter s visited clusters = .ok out →
      ∀ cl ∈ out.1, ∃ seed seedNode, cl.nodes.head? = some seed ∧
        findNode nodes0 seed = some seedNode ∧
        ∀ m ∈ cl.nodes, ∃ mn, findNode nodes0 m = some mn ∧
          minSim ≤ (analyzeCompute nodes0 seedNode mn).similarity := by
  intro iter
  induction iter with
  | nil =>
    intro s visited clusters out hn hcons _ hacc h
    rw [clustersFold] at h
    cases h
    exact hacc
  | cons node rest ih =>
    intro s visited clusters out hn hcons hiter hacc h
    rw [clustersFold] at h
    by_cases hv : node.nodeId ∈ visited
    · rw [if_pos hv] at h
      exact ih _ _ _ _ hn hcons (fun x hx => hiter x (List.mem_cons_of_mem node hx)) hacc h
    · rw [if_neg hv] at h
      have hmem : node ∈ nodes0 := hiter node (List.mem_cons_self node rest)
      obtain ⟨seedNode, hsn⟩ := mem_findNode hmem
      cases he : expandSemanticCluster s pid node.nodeId minSim visited <;> rw [he] at h
      · cases h
      · rename_i val
        obtain ⟨cl, s1, visited1⟩ := val
        obtain ⟨e1, e2, tail, hce, hcp⟩ := expandSemanticCluster_spec s pid node.nodeId minSim
          visited nodes0 seedNode hinj hsn hn hcons cl s1 visited1 he
        simp only [] at h
        by_cases hlen : 1 < cl.nodes.length
        · rw [if_pos hlen] at h
          refine ih _ _ _ _ e1 e2 (fun x hx => hiter x (List.mem_cons_of_mem node hx)) ?_ h
          intro cl2 hcl2
          rcases List.mem_append.1 hcl2 with hin | hin
          · exact hacc cl2 hin
          · rcases List.mem_singleton.1 hin with rfl
            refine ⟨node.nodeId, seedNode, by rw [hce]; rfl, hsn, ?_⟩
            have htail : tail ≠ [] := by
              intro hte
              rw [hce, hte] at hlen
              simp at hlen
            obtain ⟨m0, hm0⟩ := List.exists_mem_of_ne_nil tail htail
            obtain ⟨m0n, -, hm0b⟩ := hcp m0 hm0
            intro m hmm
            rw [hce] at hmm
            rcases List.mem_cons.1 hmm with rfl | hmt
            · exact ⟨seedNode, hsn, seed_self_bound nodes0 seedNode m0n minSim h1 hm0b⟩
            · exact hcp m hmt
        · rw [if_neg hlen] at h
          exact ih _ _ _ _ e1 e2 (fun x hx => hiter x (List.mem_cons_of_mem node hx)) hacc h

/-- Claim C2 confirmed (on a key-injective project with a consistent
similarity cache): every node placed in a returned cluster — the seed
included — has cache-miss-computed similarity at least minSimilarity to the
cluster's seed node; a star-shaped guarantee relative to the seed, not a
clique guarantee among members. -/
theorem claim_C2 (s : SystemState) (pid : ℕ) (minSim : ℝ)
    (hinj : SimKeyInjective s.nodes) (hcons : CacheConsistent s.nodes s.semanticCache)
    (h0 : 0 ≤ minSim) (h1 : minSim ≤ 1) :
    ∀ cl ∈ clustersOf (findSemanticClusters s pid minSim),
      ∃ seed seedNode, cl.nodes.head? = some seed ∧
        findNode s.nodes seed = some seedNode ∧
        ∀ m ∈ cl.nodes, ∃ mn, findNode s.nodes m = some mn ∧
          minSim ≤ (analyzeCompute s.nodes seedNode mn).similarity := by
  intro cl hcl
  unfold findSemanticClusters at hcl
  rcases hcf : clustersFold pid minSim s.nodes s [] [] with e | val
  · rw [hcf] at hcl
    cases hcl
  · rw [hcf] at hcl
    obtain ⟨clusters, s1, visited1⟩ := val
    simp only [clustersOf] at hcl
    have hmem : cl ∈ clusters := List.mem_mergeSort.1 hcl
    exact clustersFold_spec pid minSim s.nodes hinj h1 s.nodes s [] []
      (clusters, s1, visited1) rfl hcons (fun n hn => hn) (by simp) hcf cl hmem

/-- Witness for claim C2 on demoAB with threshold 1/2: the hypotheses hold
concretely (key-injective ids a, b; empty cache; threshold inside [0, 1]). -/
theorem claim_C2_witness :
    SimKeyInjective demoAB.nodes ∧ (0 : ℝ) ≤ 1 / 2 ∧ (1 / 2 : ℝ) ≤ 1 ∧
    (∀ cl ∈ clustersOf (findSemanticClusters demoAB 1 (1 / 2)),
      ∃ seed seedNode, cl.nodes.head? = some seed ∧
        findNode demoAB.nodes seed = some seedNode ∧
        ∀ m ∈ cl.nodes, ∃ mn, findNode demoAB.nodes m = some mn ∧
          1 / 2 ≤ (analyzeCompute demoAB.nodes seedNode mn).similarity) :=
  ⟨by unfold SimKeyInjective; decide, by norm_num, by norm_num,
    claim_C2 demoAB 1 (1 / 2) (by unfold SimKeyInjective; decide) (cacheConsistent_nil _)
      (by norm_num) (by norm_num)⟩

end KnowledgeGraphTS
